import Mathlib

/-!
Verification of the GTFS-RT ingestion pipeline
(`apps/poller/scripts/poll_to_postgres.py`) against its specification.

The Python module is shallowly embedded: pure helpers become Lean
functions, the lazy `DimLookup` cache becomes explicit state passing,
the PostgreSQL connection becomes a record holding the committed
database next to the pending (uncommitted) view, and exceptions become
`Except` results.  Machine integers are modelled as `Nat`/`Int`
(feed header timestamps are non-negative and never near overflow).
-/

namespace Poller

/-- Kinds of GTFS-RT feeds, mirroring the `FeedType` enum. -/
inductive FeedType
  | vehiclePositions
  | tripUpdates
  | alerts
deriving DecidableEq, Repr

/-- One row of trip timetable data, mirroring the `StopTimeEntry` dataclass. -/
structure StopTimeEntry where
  stop_sequence : Int
  stop_id : String
  arrival_seconds : Option Int
  departure_seconds : Option Int
deriving DecidableEq, Repr

/-- Python truthiness of an optional string (`None` and `""` are falsy). -/
def truthy : Option String → Bool
  | none => false
  | some s => !s.isEmpty

/-- Key lookup in an association list (models a dict / keyed SQL lookup). -/
def lookupKey [DecidableEq κ] (l : List (κ × α)) (k : κ) : Option α :=
  match l with
  | [] => none
  | (k', v) :: rest => if k' = k then some v else lookupKey rest k

/-- Write-through update of an association list entry (models dict assignment). -/
def setKey [DecidableEq κ] (l : List (κ × α)) (k : κ) (v : α) : List (κ × α) :=
  match l with
  | [] => [(k, v)]
  | (k', v') :: rest => if k' = k then (k, v) :: rest else (k', v') :: setKey rest k v

/-- Set-style insertion used for the `missing` sets: add the key only if absent. -/
def addMissing (l : List String) (x : String) : List String :=
  if x ∈ l then l else l ++ [x]

/-- Stable insertion into a list sorted by `stop_sequence`. -/
def insertBySeq (e : StopTimeEntry) : List StopTimeEntry → List StopTimeEntry
  | [] => [e]
  | x :: xs => if e.stop_sequence < x.stop_sequence then e :: x :: xs else x :: insertBySeq e xs

/-- Sort timetable rows by `stop_sequence` (models `ORDER BY stop_sequence` and
`profile.sort(key=lambda entry: entry.stop_sequence)`). -/
def sortBySeq (l : List StopTimeEntry) : List StopTimeEntry :=
  l.foldr insertBySeq []

/-- The static reference data visible to `DimLookup`: the four dimension
tables plus the optional stop-times CSV fallback (already parsed into rows;
rows whose `stop_sequence` or `stop_id` failed to parse are dropped by the
Python reader before they reach a profile, so they are not represented). -/
structure StaticData where
  dim_trips : List (String × Option String)
  dim_routes : List String
  dim_stops : List String
  dim_stop_times : List (String × StopTimeEntry)
  csv_rows : Option (List (String × StopTimeEntry))
deriving DecidableEq, Repr

/-- Mutable state of a `DimLookup` instance: the five lazy caches and the
three missing-key sets (represented as duplicate-free lists). -/
structure DimState where
  trip_routes : List (String × Option String)
  trip_profiles : List (String × List StopTimeEntry)
  trip_exists : List (String × Bool)
  route_exists : List (String × Bool)
  stop_exists : List (String × Bool)
  missing_trip : List String
  missing_route : List String
  missing_stop : List String
deriving DecidableEq, Repr

/-- A freshly constructed `DimLookup` (its `__init__`). -/
def DimState.fresh : DimState :=
  ⟨[], [], [], [], [], [], [], []⟩

/-- `DimLookup.ensure_trip`. -/
def ensure_trip (sd : StaticData) (st : DimState) (trip_id : Option String) :
    Bool × DimState :=
  match trip_id with
  | none => (false, st)
  | some t =>
    if t.isEmpty then (false, st) else
    match lookupKey st.trip_exists t with
    | some b => (b, st)
    | none =>
      let ex := (lookupKey sd.dim_trips t).isSome
      let st := if ex then st else { st with missing_trip := addMissing st.missing_trip t }
      (ex, { st with trip_exists := setKey st.trip_exists t ex })

/-- `DimLookup.get_route_for_trip`. -/
def get_route_for_trip (sd : StaticData) (st : DimState) (trip_id : Option String) :
    Option String × DimState :=
  match trip_id with
  | none => (none, st)
  | some t =>
    if t.isEmpty then (none, st) else
    match lookupKey st.trip_routes t with
    | some r => (r, st)
    | none =>
      match lookupKey sd.dim_trips t with
      | none =>
        let st := { st with missing_trip := addMissing st.missing_trip t }
        (none, { st with trip_routes := setKey st.trip_routes t none })
      | some none =>
        let st := { st with missing_trip := addMissing st.missing_trip t }
        (none, { st with trip_routes := setKey st.trip_routes t none })
      | some (some r) =>
        let st :=
          if r.isEmpty then
            { st with missing_route :=
                addMissing st.missing_route ("(from trip " ++ t ++ ")") }
          else st
        (some r, { st with trip_routes := setKey st.trip_routes t (some r) })

/-- The trip profile that `DimLookup._load_trip_profile` computes on a cache
miss: the `dim_stop_times` rows for the trip ordered by stop sequence, else
the CSV fallback profile (also sorted), else empty. -/
def tripProfilePure (sd : StaticData) (t : String) : List StopTimeEntry :=
  let rows := sortBySeq ((sd.dim_stop_times.filter (fun r => r.1 = t)).map (·.2))
  if rows.isEmpty then
    match sd.csv_rows with
    | none => []
    | some csvRows => sortBySeq ((csvRows.filter (fun r => r.1 = t)).map (·.2))
  else rows

/-- `DimLookup._load_trip_profile`. -/
def load_trip_profile (sd : StaticData) (st : DimState) (t : String) :
    List StopTimeEntry × DimState :=
  match lookupKey st.trip_profiles t with
  | some p => (p, st)
  | none =>
    let rows := sortBySeq ((sd.dim_stop_times.filter (fun r => r.1 = t)).map (·.2))
    if rows.isEmpty then
      match sd.csv_rows with
      | none =>
        let st := { st with missing_trip := addMissing st.missing_trip t }
        ([], { st with trip_profiles := setKey st.trip_profiles t [] })
      | some csvRows =>
        let p := sortBySeq ((csvRows.filter (fun r => r.1 = t)).map (·.2))
        let st :=
          if p.isEmpty then { st with missing_trip := addMissing st.missing_trip t }
          else st
        (p, { st with trip_profiles := setKey st.trip_profiles t p })
    else
      (rows, { st with trip_profiles := setKey st.trip_profiles t rows })

/-- `DimLookup.get_stop_context`: position of the current stop in the trip
profile, or `none` (recording the stop as missing when the profile exists
but does not contain it). -/
def get_stop_context (sd : StaticData) (st : DimState)
    (trip_id stop_id : Option String) : Option (Nat × StopTimeEntry) × DimState :=
  match trip_id, stop_id with
  | some t, some s =>
    if t.isEmpty || s.isEmpty then (none, st)
    else
      let (profile, st1) := load_trip_profile sd st t
      if profile.isEmpty then (none, st1)
      else
        match profile.findIdx? (fun e => e.stop_id = s) with
        | some i => ((profile.get? i).map (fun e => (i, e)), st1)
        | none => (none, { st1 with missing_stop := addMissing st1.missing_stop s })
  | _, _ => (none, st)

/-- `DimLookup.get_adjacent_stop`. -/
def get_adjacent_stop (sd : StaticData) (st : DimState)
    (trip_id : Option String) (current_index : Int) (forward : Bool) :
    Option StopTimeEntry × DimState :=
  match trip_id with
  | none => (none, st)
  | some t =>
    let (profile, st) := load_trip_profile sd st t
    if profile.isEmpty then (none, st)
    else
      let ni := current_index + (if forward then 1 else -1)
      if 0 ≤ ni ∧ ni < (profile.length : Int) then (profile.get? ni.toNat, st)
      else (none, st)

/-- `DimLookup.ensure_route`. -/
def ensure_route (sd : StaticData) (st : DimState) (route_id : Option String) :
    Bool × DimState :=
  match route_id with
  | none => (false, st)
  | some r =>
    if r.isEmpty then (false, st) else
    match lookupKey st.route_exists r with
    | some b => (b, st)
    | none =>
      let ex := sd.dim_routes.contains r
      let st := if ex then st else { st with missing_route := addMissing st.missing_route r }
      (ex, { st with route_exists := setKey st.route_exists r ex })

/-- `DimLookup.ensure_stop`. -/
def ensure_stop (sd : StaticData) (st : DimState) (stop_id : Option String) :
    Bool × DimState :=
  match stop_id with
  | none => (false, st)
  | some s =>
    if s.isEmpty then (false, st) else
    match lookupKey st.stop_exists s with
    | some b => (b, st)
    | none =>
      let ex := sd.dim_stops.contains s
      let st := if ex then st else { st with missing_stop := addMissing st.missing_stop s }
      (ex, { st with stop_exists := setKey st.stop_exists s ex })

/-- `DimLookup.report_missing` output: one aggregated line per non-empty
missing category, carrying the category name, a sample of at most ten
sorted keys, and the count of keys beyond the sample. -/
structure ReportLine where
  category : String
  sample : List String
  extra : Nat
deriving DecidableEq, Repr

/-- Build the report line for one category (`sorted(values)[:10]` plus the
`(+N more)` suffix count), or nothing when the category has no missing keys. -/
def reportLineFor (category : String) (values : List String) : Option ReportLine :=
  if values.isEmpty then none
  else
    some ⟨category, (values.mergeSort (fun a b => a ≤ b)).take 10,
      values.length - min values.length 10⟩

/-- `DimLookup.report_missing`: the aggregated warning lines emitted at the
end of a cycle (the subsequent clearing of the sets is not needed by any
claim and is omitted). -/
def report_missing (st : DimState) : List ReportLine :=
  (reportLineFor "trip" st.missing_trip).toList ++
    (reportLineFor "route" st.missing_route).toList ++
      (reportLineFor "stop" st.missing_stop).toList

/-! ## Feed classification (`classify_feed`) -/

/-- Payload-presence flags of one `FeedEntity` (`entity.HasField(...)`). -/
structure Entity where
  hasVehicle : Bool
  hasTripUpdate : Bool
  hasAlert : Bool
deriving DecidableEq, Repr

/-- Whether one character list starts with another. -/
def startsWithChars : List Char → List Char → Bool
  | [], _ => true
  | _ :: _, [] => false
  | a :: as, b :: bs => a = b && startsWithChars as bs

/-- Whether `needle` occurs contiguously inside `hay` (Python's `in` on str). -/
def hasSubChars (needle : List Char) : List Char → Bool
  | [] => startsWithChars needle []
  | c :: rest => startsWithChars needle (c :: rest) || hasSubChars needle rest

/-- Python `needle in hay` for strings. -/
def strContains (hay needle : String) : Bool :=
  hasSubChars needle.data hay.data

/-- Python `str.lower` (ASCII-adequate for the feed URLs involved). -/
def lowerStr (s : String) : String :=
  s.map Char.toLower

/-- The entity scan at the top of `classify_feed`: the first entity carrying
any payload decides the kind, testing vehicle, then trip-update, then alert
on that entity. -/
def classifyEntities : List Entity → Option FeedType
  | [] => none
  | e :: rest =>
    if e.hasVehicle then some .vehiclePositions
    else if e.hasTripUpdate then some .tripUpdates
    else if e.hasAlert then some .alerts
    else classifyEntities rest

/-- `classify_feed`: entity scan first, then URL substring fallback, else an
unclassifiable-feed error. -/
def classify_feed (url : String) (entities : List Entity) : Except String FeedType :=
  match classifyEntities entities with
  | some t => .ok t
  | none =>
    let u := lowerStr url
    if strContains u "vehicle" then .ok .vehiclePositions
    else if strContains u "trip" then .ok .tripUpdates
    else if strContains u "alert" then .ok .alerts
    else .error ("Unable to classify feed type for " ++ url)

/-- The classifier that claim C3 describes, built from the claim's words: a
global priority scan (any vehicle entity anywhere wins, then any trip-update
entity, then any alert entity) before the URL fallback. -/
def classifyClaimOrder (url : String) (entities : List Entity) : Except String FeedType :=
  if entities.any (·.hasVehicle) then .ok .vehiclePositions
  else if entities.any (·.hasTripUpdate) then .ok .tripUpdates
  else if entities.any (·.hasAlert) then .ok .alerts
  else
    let u := lowerStr url
    if strContains u "vehicle" then .ok .vehiclePositions
    else if strContains u "trip" then .ok .tripUpdates
    else if strContains u "alert" then .ok .alerts
    else .error ("Unable to classify feed type for " ++ url)

/-- The amended decision rule: the first entity carrying any payload decides
the kind (vehicle, then trip-update, then alert, tested on that entity
alone); only a message with no payload-bearing entity falls back to the URL. -/
def classifyAmendedOrder (url : String) (entities : List Entity) : Except String FeedType :=
  match entities.find? (fun e => e.hasVehicle || e.hasTripUpdate || e.hasAlert) with
  | some e =>
    if e.hasVehicle then .ok .vehiclePositions
    else if e.hasTripUpdate then .ok .tripUpdates
    else .ok .alerts
  | none =>
    let u := lowerStr url
    if strContains u "vehicle" then .ok .vehiclePositions
    else if strContains u "trip" then .ok .tripUpdates
    else if strContains u "alert" then .ok .alerts
    else .error ("Unable to classify feed type for " ++ url)

/-! ## Vehicle position extraction (`extract_vehicle_position_rows`) -/

/-- The decoded fields of one vehicle-position entity that the extractor
reads (`MessageToDict` omits absent fields, hence the `Option`s; position,
status and timestamp payload fields are carried opaquely elsewhere and are
not read by any claim, so they are not modelled). -/
structure VehicleEntity where
  id : Option String
  vehicle_id : Option String
  vehicle_label : Option String
  trip_id : Option String
  stop_id : Option String
deriving DecidableEq, Repr

/-- The identifier fields of a `VehiclePositionRecord` produced per entity. -/
structure VehRecord where
  entity_id : String
  vehicle_id : Option String
  vehicle_label : Option String
  trip_id : Option String
  route_id : Option String
  current_stop_id : Option String
  previous_stop_id : Option String
  next_stop_id : Option String
  next_stop_sequence : Option Int
deriving DecidableEq, Repr

/-- The loop body of `extract_vehicle_position_rows` for one vehicle entity:
`none` when the entity is skipped (no entity id), otherwise the record and
the updated `DimLookup` state. -/
def extract_vehicle_record (sd : StaticData) (st : DimState) (e : VehicleEntity) :
    Option VehRecord × DimState :=
  if !truthy e.id then (none, st)
  else
    let entity_id := e.id.getD ""
    let raw_trip_id := e.trip_id
    let r1 := ensure_trip sd st raw_trip_id
    let trip_valid := r1.1
    let trip_id := if trip_valid then raw_trip_id else none
    let r2 := if trip_valid then get_route_for_trip sd r1.2 raw_trip_id else (none, r1.2)
    let r3 :=
      if truthy r2.1 then
        let rq := ensure_route sd r2.2 r2.1
        (if rq.1 then r2.1 else none, rq.2)
      else r2
    let route_id := r3.1
    let r4 := ensure_stop sd r3.2 e.stop_id
    let current_stop_id := if r4.1 then e.stop_id else none
    let r5 :=
      if truthy current_stop_id && truthy raw_trip_id then
        get_stop_context sd r4.2 raw_trip_id current_stop_id
      else (none, r4.2)
    let r9 :=
      match r5.1 with
      | none => ((none, none, none), r5.2)
      | some (index, _entry) =>
        let rp := get_adjacent_stop sd r5.2 raw_trip_id (index : Int) false
        let rn := get_adjacent_stop sd rp.2 raw_trip_id (index : Int) true
        let rpe :=
          match rp.1 with
          | none => ((none : Option String), rn.2)
          | some pe =>
            let rq := ensure_stop sd rn.2 (some pe.stop_id)
            (if rq.1 then some pe.stop_id else none, rq.2)
        let rne :=
          match rn.1 with
          | none => ((none : Option String), (none : Option Int), rpe.2)
          | some ne =>
            let rq := ensure_stop sd rpe.2 (some ne.stop_id)
            (if rq.1 then (some ne.stop_id, some ne.stop_sequence, rq.2)
             else (none, none, rq.2))
        ((rpe.1, rne.1, rne.2.1), rne.2.2)
    (some
      { entity_id := entity_id
        vehicle_id := e.vehicle_id
        vehicle_label := e.vehicle_label
        trip_id := trip_id
        route_id := route_id
        current_stop_id := current_stop_id
        previous_stop_id := r9.1.1
        next_stop_id := r9.1.2.1
        next_stop_sequence := r9.1.2.2 }, r9.2)

/-! ## Alert child-row storage (`store_alerts`, child inserts) -/

/-- A child row of an alert: the snapshot, the alert id, and the affected
entity id (route, stop or trip id) or discrete active-period index. -/
structure AlertChildRow where
  snapshot_id : Nat
  alert_id : String
  child_key : String
deriving DecidableEq, Repr

/-- Whether two rows collide on the table's unique key (for the alert child
tables the whole row is the key). -/
def childKeyEq (a b : AlertChildRow) : Bool :=
  decide (a = b)

/-- A single SQL `INSERT` into a table with a unique key: with
`conflictIgnore` (the `ON CONFLICT DO NOTHING` clause) a duplicate key
leaves the table unchanged; without it a duplicate key raises. -/
def dbInsert (conflictIgnore : Bool) (t : List AlertChildRow) (r : AlertChildRow) :
    Except String (List AlertChildRow) :=
  if t.any (childKeyEq r) then
    if conflictIgnore then .ok t else .error "duplicate key value violates unique constraint"
  else .ok (t ++ [r])

/-- One `execute_batch` insert of alert child rows, as issued by
`store_alerts` for the `rt_alert_routes` / `rt_alert_stops` /
`rt_alert_trips` / `rt_alert_active_periods` tables: every statement
carries `ON CONFLICT DO NOTHING`. -/
def insert_alert_children (t : List AlertChildRow) :
    List AlertChildRow → Except String (List AlertChildRow)
  | [] => .ok t
  | r :: rest =>
    match dbInsert true t r with
    | .ok t' => insert_alert_children t' rest
    | .error e => .error e

/-! ## Cycle orchestration (`run_iteration` and its helpers) -/

/-- A fetched-and-classified feed (`FeedEnvelope`); the entity payloads are
consumed by the writers, which the cycle model treats abstractly (their
per-entity row logic is modelled separately above). -/
structure Envelope where
  url : String
  feed_type : FeedType
  header_timestamp : Option Nat
deriving DecidableEq, Repr

/-- Header-timestamp normalisation performed by `fetch_single_feed`:
`getattr(message.header, "timestamp", 0) or None` followed by
`int(...) if ... else None` maps both an absent header field and a zero
timestamp to `None`. -/
def normalize_header : Option Nat → Option Nat
  | none => none
  | some 0 => none
  | some n => some n

/-- `fetch_single_feed`'s envelope construction for a successfully decoded
and classified message. -/
def mk_envelope (url : String) (ft : FeedType) (rawHeader : Option Nat) : Envelope :=
  ⟨url, ft, normalize_header rawHeader⟩

/-- `_header_is_stale`: a feed is stale only when both the new header and
the stored cursor are present and the header does not exceed the cursor. -/
def header_is_stale (header previous : Option Nat) : Bool :=
  match header, previous with
  | some h, some p => h ≤ p
  | _, _ => false

/-- Per-URL consecutive-failure state (`failure_state[url]`). -/
structure FailEntry where
  count : Nat
  alert_sent : Bool
deriving DecidableEq, Repr

/-- The per-URL failure-tracking state, keyed by feed URL. -/
abbrev FailureState := List (String × FailEntry)

/-- The failure branch of the fetch loop for one URL: increment the
consecutive-failure counter and decide whether to dispatch the one-shot
alert (`count >= threshold` with a positive threshold and no alert yet sent
for this streak); returns the new entry and whether an alert was sent. -/
def fail_step (threshold : Nat) (st : FailEntry) : FailEntry × Bool :=
  let c := st.count + 1
  let alert := decide (0 < threshold) && decide (threshold ≤ c) && !st.alert_sent
  (⟨c, st.alert_sent || alert⟩, alert)

/-- The success branch of the fetch loop for one URL: reset the counter and
the alert flag when either is set. -/
def success_step (st : FailEntry) : FailEntry :=
  if st.count ≠ 0 || st.alert_sent then ⟨0, false⟩ else st

/-- `failure_state.setdefault(url, {"count": 0, "alert_sent": False})`. -/
def getFailEntry (fs : FailureState) (url : String) : FailEntry :=
  (lookupKey fs url).getD ⟨0, false⟩

/-- Snapshot rows are tagged by an opaque numeric id (`uuid4` in the code). -/
abbrev SnapId := Nat

/-- The mutable output-store tables touched by one cycle.  Row contents are
identified by `(snapshot id, writer tag)`; the per-row field logic is
modelled separately (`extract_vehicle_record`, `insert_alert_children`). -/
structure DB where
  cursors : List (FeedType × Nat)
  snapshots : List SnapId
  delayRows : List (SnapId × Nat)
  alertRows : List (SnapId × Nat)
  vehicleRows : List (SnapId × Nat)
deriving DecidableEq, Repr

/-- The single psycopg2 connection with `autocommit = False`: `committed` is
what the database durably holds, `pending` additionally holds the writes of
the open transaction.  `commit` publishes `pending`; `rollback` (and the
implicit rollback when the connection closes without committing) discards
it. -/
structure Conn where
  committed : DB
  pending : DB
deriving DecidableEq, Repr

/-- `conn.rollback()`. -/
def Conn.rollback (c : Conn) : Conn :=
  ⟨c.committed, c.committed⟩

/-- `conn.commit()`. -/
def Conn.commit (c : Conn) : Conn :=
  ⟨c.pending, c.pending⟩

/-- The outcome of `fetch_single_feed` for one URL: a decoded, classified
envelope, or any exception (network, decode or classification failure — the
`except Exception` clause treats them alike). -/
inductive FetchOutcome
  | success (env : Envelope)
  | failure
deriving DecidableEq, Repr

/-- The fetch loop of `run_iteration`: accumulates successful envelopes,
updates the per-URL failure state, rolls the connection back on each
failure, and records which URLs had an alert dispatched this cycle. -/
def processFetches (threshold : Nat) :
    List (String × FetchOutcome) → Conn → FailureState →
    List Envelope × Conn × FailureState × List String
  | [], conn, fs => ([], conn, fs, [])
  | (url, outcome) :: rest, conn, fs =>
    match outcome with
    | .failure =>
      let (entry, alerted) := fail_step threshold (getFailEntry fs url)
      let fs' := setKey fs url entry
      let (envs, conn', fs'', alerts) := processFetches threshold rest conn.rollback fs'
      (envs, conn', fs'', (if alerted then [url] else []) ++ alerts)
    | .success env =>
      let fs' := setKey fs url (success_step (getFailEntry fs url))
      let (envs, conn', fs'', alerts) := processFetches threshold rest conn fs'
      (env :: envs, conn', fs'', alerts)

/-- `index_envelopes`: deduplicate by feed kind, keeping the envelope with
the larger header timestamp (`None` compares as `-1`), first-wins on ties. -/
def index_envelopes (envs : List Envelope) : List (FeedType × Envelope) :=
  envs.foldl
    (fun indexed env =>
      match lookupKey indexed env.feed_type with
      | some existing =>
        let existing_ts : Int := match existing.header_timestamp with
          | none => -1
          | some n => (n : Int)
        let new_ts : Int := match env.header_timestamp with
          | none => -1
          | some n => (n : Int)
        if existing_ts < new_ts then setKey indexed env.feed_type env else indexed
      | none => indexed ++ [(env.feed_type, env)])
    []

/-- `load_feed_cursors`: the stored header timestamp per feed kind. -/
def load_feed_cursors (db : DB) (ft : FeedType) : Option Nat :=
  lookupKey db.cursors ft

/-- `update_feed_cursor`: upsert the cursor row unless the new header
timestamp is `None`. -/
def update_feed_cursor (db : DB) (ft : FeedType) (header : Option Nat) : DB :=
  match header with
  | none => db
  | some v => { db with cursors := setKey db.cursors ft v }

/-- The three sub-writers of the write phase, abstracted to their effect on
each one's own row table for a given snapshot id and envelope (the vehicle
writer may also delete, covering the history/current pruning).  The cycle
orchestration theorems hold for every instantiation; the per-row field
logic is modelled separately above. -/
structure WriterSem where
  delayStep : SnapId → Envelope → List (SnapId × Nat) → List (SnapId × Nat)
  alertStep : SnapId → Envelope → List (SnapId × Nat) → List (SnapId × Nat)
  vehicleStep : SnapId → Envelope → List (SnapId × Nat) → List (SnapId × Nat)

/-- Writers that leave every table unchanged (used for concrete runs whose
claims do not inspect row contents). -/
def idWriters : WriterSem :=
  ⟨fun _ _ rows => rows, fun _ _ rows => rows, fun _ _ rows => rows⟩

/-- The dummy envelope used to totalise lookups that the card-three guard
makes unreachable. -/
def emptyEnvelope (ft : FeedType) : Envelope :=
  ⟨"", ft, none⟩

/-- `indexed[feed_type]` after the completeness guard. -/
def indexedGet (indexed : List (FeedType × Envelope)) (ft : FeedType) : Envelope :=
  (lookupKey indexed ft).getD (emptyEnvelope ft)

/-- Run the ordered write-phase statements; statement `k` raises when the
write-error oracle names it, leaving the transaction open with the writes
applied so far (returned in the error case). -/
def runSteps (failAt : Option Nat) (k : Nat) :
    List (DB → DB) → DB → Except DB DB
  | [], db => .ok db
  | f :: rest, db =>
    if failAt = some k then .error db
    else runSteps failAt (k + 1) rest (f db)

/-- The ordered list of write-phase statements of one cycle: insert the
snapshot row, run the trip-delay writer, the alert writer, the vehicle
writer, then upsert the cursor row for every indexed feed kind.  The final
`commit` is modelled in `run_iteration` as one more failable step. -/
def writeSteps (W : WriterSem) (sid : SnapId) (indexed : List (FeedType × Envelope)) :
    List (DB → DB) :=
  [fun db => { db with snapshots := sid :: db.snapshots },
   fun db => { db with delayRows := W.delayStep sid (indexedGet indexed .tripUpdates) db.delayRows },
   fun db => { db with alertRows := W.alertStep sid (indexedGet indexed .alerts) db.alertRows },
   fun db => { db with vehicleRows := W.vehicleStep sid (indexedGet indexed .vehiclePositions) db.vehicleRows }]
    ++ indexed.map (fun p db => update_feed_cursor db p.1 p.2.header_timestamp)

/-- The whole-cycle inputs: the per-URL fetch outcomes in configured order,
the dry-run flag, the failure-alert threshold, the fresh snapshot id, and
the write-error oracle (`failAt = some k` makes the `k`-th write-phase
statement raise; `failAt = none` is an error-free write phase). -/
structure IterInput where
  fetches : List (String × FetchOutcome)
  dry_run : Bool
  threshold : Nat
  snapshot_id : SnapId
  failAt : Option Nat
deriving Repr

/-- `run_iteration`: fetch and classify every configured feed, require all
three feed kinds, skip the cycle when every fetched header is stale, then
write the snapshot, rows and cursors in one transaction committed at the
end.  Returns the cycle result (`Except`: an uncaught write-phase
exception), the connection, the failure state, and the alerted URLs. -/
def run_iteration (W : WriterSem) (inp : IterInput) (conn : Conn) (fs : FailureState) :
    Except Unit Bool × Conn × FailureState × List String :=
  let (envelopes, conn, fs, alerts) := processFetches inp.threshold inp.fetches conn fs
  let feed_types := (envelopes.map (·.feed_type)).dedup
  if feed_types.length ≠ 3 then
    (.ok false, conn.rollback, fs, alerts)
  else
    let cursors := load_feed_cursors conn.pending
    if envelopes.all (fun env => header_is_stale env.header_timestamp (cursors env.feed_type)) then
      (.ok false, conn.rollback, fs, alerts)
    else
      let indexed := index_envelopes envelopes
      if inp.dry_run then
        (.ok true, conn.rollback, fs, alerts)
      else
        let steps := writeSteps W inp.snapshot_id indexed ++ [id]
        match runSteps inp.failAt 0 steps conn.pending with
        | .ok db' => (.ok true, Conn.commit ⟨conn.committed, db'⟩, fs, alerts)
        | .error db' => (.error (), ⟨conn.committed, db'⟩, fs, alerts)

/-- The polling loop of `main` around `run_iteration`: cycles execute in
sequence; a cycle returning normally (successful or skipped) is followed by
the next scheduled cycle, while an uncaught exception escapes the loop (the
`try` block around it has only a `finally`, which closes the connection,
discarding any open transaction) and ends the process.  Returns the number
of cycles that ran to completion. -/
def poll_loop (W : WriterSem) :
    List IterInput → Conn → FailureState → Except Unit (Conn × FailureState × Nat)
  | [], conn, fs => .ok (conn, fs, 0)
  | inp :: rest, conn, fs =>
    match run_iteration W inp conn fs with
    | (.ok _, conn', fs', _) =>
      match poll_loop W rest conn' fs' with
      | .ok (c, f, n) => .ok (c, f, n + 1)
      | .error e => .error e
    | (.error _, _, _, _) => .error ()

/-! ## Maintenance scheduling (`main`, static-refresh and archive gates)

Calendar dates (Europe/Madrid) are modelled as day numbers and times of day
as minutes since midnight; `timedelta(days=n)` adds `n` to a day number. -/

/-- The archive task's recorded state (`archive_state` in `main`). -/
structure ArchiveState where
  last_archive_date : Option Nat
  last_attempt_date : Option Nat
  next_archive_date : Option Nat
deriving DecidableEq, Repr

/-- Initial archive state computed at startup (`main`, before the loop):
`last_archive_date` is read from the archive history; `next_archive_date`
is that date plus the configured interval, or today plus the interval when
there is no history; both only when auto-archival is enabled. -/
def initArchiveState (latest : Option Nat) (today : Nat) (auto : Bool)
    (intervalDays : Nat) : ArchiveState :=
  let next := match latest with
    | some d => d + intervalDays
    | none => today + intervalDays
  ⟨latest, none, if auto then some next else none⟩

/-- The startup archive run (`main`, the `initial_archive_snapshots`
branch): force `next_archive_date` to today, run the task, record the
attempt; the success date and the next scheduled date are advanced only
when the run succeeded *and* the current time has already passed the
archive time-of-day threshold. -/
def startupArchive (s : ArchiveState) (day timeNow threshold : Nat) (ok : Bool)
    (intervalDays : Nat) : ArchiveState :=
  let s := { s with next_archive_date := some day }
  let s := { s with last_attempt_date := some day }
  if ok && decide (threshold ≤ timeNow) then
    { s with last_archive_date := some day, next_archive_date := some (day + intervalDays) }
  else if s.next_archive_date = none then
    { s with next_archive_date := some (day + intervalDays) }
  else s

/-- The in-loop archive gate (`main`, lines guarding
`run_archive_snapshots`): time of day past the threshold, no success and no
attempt recorded for today, and the recorded next-archive date (when set)
reached. -/
def archive_gate (s : ArchiveState) (today timeNow threshold : Nat) : Bool :=
  decide (threshold ≤ timeNow) &&
    (s.last_archive_date != some today) &&
      (s.last_attempt_date != some today) &&
        (match s.next_archive_date with
         | none => true
         | some n => decide (n ≤ today))

/-- The in-loop archive state update after a triggered run. -/
def archive_after_run (s : ArchiveState) (today : Nat) (ok : Bool)
    (intervalDays : Nat) : ArchiveState :=
  let s := { s with last_attempt_date := some today }
  if ok then
    { s with last_archive_date := some today, next_archive_date := some (today + intervalDays) }
  else if s.next_archive_date = none then
    { s with next_archive_date := some (today + intervalDays) }
  else s

/-- The in-loop static-refresh gate (`main`): time of day past the
threshold and no refresh recorded for today.  The refresh task keeps no
separate attempt date and no inter-run interval; a failed refresh raises
`SystemExit`. -/
def refresh_gate (lastRefreshDate : Option Nat) (today timeNow threshold : Nat) : Bool :=
  decide (threshold ≤ timeNow) && (lastRefreshDate != some today)

/-- Which maintenance task a cycle triggers, mirroring the top of the
polling loop: the refresh gate is evaluated first and, when it fires, the
cycle restarts (`continue`) without considering the archive gate. -/
inductive MaintTask
  | refresh
  | archive
deriving DecidableEq, Repr

/-- The maintenance gating performed at the top of each polling cycle. -/
def cycle_maintenance (autoRefresh autoArchive dryRun : Bool)
    (lastRefreshDate : Option Nat) (s : ArchiveState)
    (today timeNow refreshThreshold archiveThreshold : Nat) : Option MaintTask :=
  if autoRefresh && !dryRun && refresh_gate lastRefreshDate today timeNow refreshThreshold then
    some .refresh
  else if autoArchive && !dryRun && archive_gate s today timeNow archiveThreshold then
    some .archive
  else none

/-- The interval condition claim C9 asserts: the configured minimum
inter-run interval has elapsed since the task's recorded last success
(vacuous when no success is recorded). -/
def intervalElapsed (lastSuccess : Option Nat) (today intervalDays : Nat) : Bool :=
  match lastSuccess with
  | none => true
  | some d => decide (d + intervalDays ≤ today)

/-! ## Helper lemmas -/

/-- The envelopes that survive the fetch loop, in configured order. -/
def successEnvs (fetches : List (String × FetchOutcome)) : List Envelope :=
  fetches.filterMap (fun p => match p.2 with | .success e => some e | .failure => none)

theorem processFetches_committed (th : Nat) (fetches : List (String × FetchOutcome))
    (conn : Conn) (fs : FailureState) :
    (processFetches th fetches conn fs).2.1.committed = conn.committed := by
  induction fetches generalizing conn fs with
  | nil => rfl
  | cons hd tl ih =>
    obtain ⟨url, outcome⟩ := hd
    cases outcome with
    | failure => simpa [processFetches, Conn.rollback] using ih conn.rollback _
    | success env => simpa [processFetches] using ih conn _

theorem processFetches_clean (th : Nat) (fetches : List (String × FetchOutcome))
    (c : DB) (fs : FailureState) :
    ∃ fsOut alerts, processFetches th fetches ⟨c, c⟩ fs =
      (successEnvs fetches, ⟨c, c⟩, fsOut, alerts) := by
  induction fetches generalizing fs with
  | nil => exact ⟨fs, [], rfl⟩
  | cons hd tl ih =>
    obtain ⟨url, outcome⟩ := hd
    cases outcome with
    | failure =>
      obtain ⟨fsO, al, h⟩ := ih (setKey fs url (fail_step th (getFailEntry fs url)).1)
      refine ⟨fsO, (if (fail_step th (getFailEntry fs url)).2 then [url] else []) ++ al, ?_⟩
      simp [processFetches, successEnvs, Conn.rollback, h]
    | success env =>
      obtain ⟨fsO, al, h⟩ := ih (setKey fs url (success_step (getFailEntry fs url)))
      refine ⟨fsO, al, ?_⟩
      simp [processFetches, successEnvs, h]

theorem runSteps_none (l : List (DB → DB)) (k : Nat) (db : DB) :
    runSteps none k l db = .ok (l.foldl (fun d f => f d) db) := by
  induction l generalizing k db with
  | nil => rfl
  | cons f rest ih => simpa [runSteps] using ih (k + 1) (f db)

theorem update_feed_cursor_snapshots (db : DB) (ft : FeedType) (h : Option Nat) :
    (update_feed_cursor db ft h).snapshots = db.snapshots := by
  cases h <;> rfl

theorem cursorSteps_snapshots (l : List (FeedType × Envelope)) (db : DB) :
    ((l.map (fun p db => update_feed_cursor db p.1 p.2.header_timestamp)).foldl
        (fun d f => f d) db).snapshots = db.snapshots := by
  induction l generalizing db with
  | nil => rfl
  | cons hd tl ih =>
    simpa [update_feed_cursor_snapshots] using ih (update_feed_cursor db hd.1 hd.2.header_timestamp)

theorem writeSteps_snapshots (W : WriterSem) (sid : SnapId)
    (indexed : List (FeedType × Envelope)) (db : DB) :
    (((writeSteps W sid indexed) ++ [id]).foldl (fun (d : DB) (f : DB → DB) => f d) db).snapshots =
      sid :: db.snapshots := by
  unfold writeSteps
  rw [List.append_assoc, List.foldl_append, List.foldl_append]
  simp only [List.foldl_cons, List.foldl_nil, id]
  rw [cursorSteps_snapshots]

/-- The completeness-and-freshness condition of one cycle, relative to the
committed cursor table: all three feed kinds fetched and classified, and at
least one fetched envelope not stale. -/
def cycleProceeds (fetches : List (String × FetchOutcome)) (c : DB) : Prop :=
  ((successEnvs fetches).map (·.feed_type)).dedup.length = 3 ∧
    ¬((successEnvs fetches).all
        (fun env => header_is_stale env.header_timestamp (lookupKey c.cursors env.feed_type)) = true)

instance (fetches : List (String × FetchOutcome)) (c : DB) :
    Decidable (cycleProceeds fetches c) := by
  unfold cycleProceeds; infer_instance

theorem run_iteration_commits (W : WriterSem) (inp : IterInput) (c : DB) (fs : FailureState)
    (hd : inp.dry_run = false) (hf : inp.failAt = none)
    (h : cycleProceeds inp.fetches c) :
    ∃ fsOut alerts db', run_iteration W inp ⟨c, c⟩ fs = (.ok true, ⟨db', db'⟩, fsOut, alerts) ∧
      db'.snapshots = inp.snapshot_id :: c.snapshots := by
  obtain ⟨h3, hst⟩ := h
  obtain ⟨fsOut, alerts, hp⟩ := processFetches_clean inp.threshold inp.fetches c fs
  refine ⟨fsOut, alerts,
    ((writeSteps W inp.snapshot_id (index_envelopes (successEnvs inp.fetches)) ++ [id]).foldl
      (fun (d : DB) (f : DB → DB) => f d) c), ?_,
    writeSteps_snapshots W inp.snapshot_id _ c⟩
  simp only [run_iteration, hp, load_feed_cursors, hd, hf, runSteps_none]
  rw [if_neg (by simp [h3]), if_neg hst]
  rfl

theorem run_iteration_skips (W : WriterSem) (inp : IterInput) (c : DB) (fs : FailureState)
    (h : ¬cycleProceeds inp.fetches c) :
    ∃ fsOut alerts, run_iteration W inp ⟨c, c⟩ fs = (.ok false, ⟨c, c⟩, fsOut, alerts) := by
  obtain ⟨fsOut, alerts, hp⟩ := processFetches_clean inp.threshold inp.fetches c fs
  rw [cycleProceeds, not_and_or, not_not] at h
  rcases h with h3 | hst
  · exact ⟨fsOut, alerts, by simp [run_iteration, hp, h3, Conn.rollback]⟩
  · by_cases h3 : ((successEnvs inp.fetches).map (·.feed_type)).dedup.length = 3
    · exact ⟨fsOut, alerts, by
        simp [run_iteration, hp, h3, load_feed_cursors, hst, Conn.rollback]⟩
    · exact ⟨fsOut, alerts, by simp [run_iteration, hp, h3, Conn.rollback]⟩

theorem not_all_iff_exists_false {α : Type} (l : List α) (p : α → Bool) :
    ¬(l.all p = true) ↔ ∃ x ∈ l, p x = false := by
  simp [List.all_eq_true]

/-! ## Claim C1 -/

/-- C1 (amended): with a clean connection, outside dry-run mode and absent
write-phase errors, a Snapshot row is committed if and only if all three
feed kinds were successfully fetched and classified this cycle and at least
one fetched feed is not stale — its header timestamp strictly exceeds its
stored cursor, or its header timestamp or cursor row is absent (the
original claim required a strictly greater header outright, which fails
when a feed with an absent header or cursor lets the cycle proceed). -/
theorem C1_snapshot_iff (W : WriterSem) (inp : IterInput) (c : DB) (fs : FailureState)
    (hd : inp.dry_run = false) (hf : inp.failAt = none) :
    ((run_iteration W inp ⟨c, c⟩ fs).2.1.committed.snapshots ≠ c.snapshots) ↔
      (((successEnvs inp.fetches).map (·.feed_type)).dedup.length = 3 ∧
        ∃ env ∈ successEnvs inp.fetches,
          header_is_stale env.header_timestamp (lookupKey c.cursors env.feed_type) = false) := by
  have hconv : cycleProceeds inp.fetches c ↔
      (((successEnvs inp.fetches).map (·.feed_type)).dedup.length = 3 ∧
        ∃ env ∈ successEnvs inp.fetches,
          header_is_stale env.header_timestamp (lookupKey c.cursors env.feed_type) = false) := by
    unfold cycleProceeds
    rw [not_all_iff_exists_false]
  by_cases h : cycleProceeds inp.fetches c
  · obtain ⟨fsOut, alerts, db', hr, hs⟩ := run_iteration_commits W inp c fs hd hf h
    rw [hr]
    show (db'.snapshots ≠ c.snapshots) ↔ _
    rw [hs]
    exact iff_of_true (List.cons_ne_self _ _) (hconv.mp h)
  · obtain ⟨fsOut, alerts, hr⟩ := run_iteration_skips W inp c fs h
    rw [hr]
    simp only [ne_eq, not_true_eq_false, false_iff]
    rw [← hconv]
    exact h

/-- Witness for C1: a concrete proceeding cycle. -/
theorem C1_snapshot_iff_witness :
    ((run_iteration idWriters
        ⟨[("u1", .success ⟨"u1", .vehiclePositions, some 100⟩),
          ("u2", .success ⟨"u2", .tripUpdates, some 50⟩),
          ("u3", .success ⟨"u3", .alerts, some 75⟩)], false, 0, 7, none⟩
        ⟨⟨[(.vehiclePositions, 100), (.tripUpdates, 40), (.alerts, 75)], [], [], [], []⟩,
         ⟨[(.vehiclePositions, 100), (.tripUpdates, 40), (.alerts, 75)], [], [], [], []⟩⟩
        []).2.1.committed.snapshots ≠ []) ↔
      ((((successEnvs [("u1", .success ⟨"u1", .vehiclePositions, some 100⟩),
          ("u2", .success ⟨"u2", .tripUpdates, some 50⟩),
          ("u3", .success ⟨"u3", .alerts, some 75⟩)]).map (·.feed_type)).dedup.length = 3) ∧
        ∃ env ∈ successEnvs [("u1", .success ⟨"u1", .vehiclePositions, some 100⟩),
          ("u2", .success ⟨"u2", .tripUpdates, some 50⟩),
          ("u3", .success ⟨"u3", .alerts, some 75⟩)],
          header_is_stale env.header_timestamp
            (lookupKey [(.vehiclePositions, 100), (.tripUpdates, 40), (.alerts, 75)]
              env.feed_type) = false) :=
  C1_snapshot_iff idWriters _ _ [] rfl rfl

/-- Whether a fetched envelope's header timestamp is strictly greater than
the stored cursor value for its kind, both being present — the freshness
notion that claim C1 as stated requires of at least one feed. -/
def strictlyFresh (c : DB) (env : Envelope) : Bool :=
  match env.header_timestamp, lookupKey c.cursors env.feed_type with
  | some h, some cv => decide (cv < h)
  | _, _ => false

/-- Counterexample to C1 as stated: all three kinds are fetched, no fetched
header is strictly greater than a stored cursor (the trip-updates feed has
no header timestamp at all, the other two equal their cursors), yet the
cycle passes the staleness check and a Snapshot row is committed. -/
theorem C1_counterexample :
    ((run_iteration idWriters
        ⟨[("u1", .success ⟨"u1", .vehiclePositions, some 100⟩),
          ("u2", .success ⟨"u2", .tripUpdates, none⟩),
          ("u3", .success ⟨"u3", .alerts, some 75⟩)], false, 0, 7, none⟩
        ⟨⟨[(.vehiclePositions, 100), (.tripUpdates, 40), (.alerts, 75)], [], [], [], []⟩,
         ⟨[(.vehiclePositions, 100), (.tripUpdates, 40), (.alerts, 75)], [], [], [], []⟩⟩
        []).2.1.committed.snapshots ≠ []) ∧
      (∀ env ∈ successEnvs [("u1", .success ⟨"u1", .vehiclePositions, some 100⟩),
          ("u2", .success ⟨"u2", .tripUpdates, none⟩),
          ("u3", .success ⟨"u3", .alerts, some 75⟩)],
        strictlyFresh ⟨[(.vehiclePositions, 100), (.tripUpdates, 40), (.alerts, 75)],
          [], [], [], []⟩ env = false) := by
  constructor
  · decide
  · decide

/-! ## Claim C2 -/

/-- C2 (amended): for every cycle in which *every* fetched feed's header
timestamp is less than or equal to its stored cursor, no snapshot is
produced, no rows of any kind are written, and all cursors are unchanged
(the cycle ends with the whole store untouched).  The original per-feed
claim fails because one fresh feed makes the cycle proceed, whereupon the
stale feed's rows are written too and its cursor is overwritten with the
new, not-greater header timestamp. -/
theorem C2_all_stale_frame (W : WriterSem) (inp : IterInput) (c : DB) (fs : FailureState)
    (h : ∀ env ∈ successEnvs inp.fetches,
        header_is_stale env.header_timestamp (lookupKey c.cursors env.feed_type) = true) :
    ∃ fsOut alerts, run_iteration W inp ⟨c, c⟩ fs = (.ok false, ⟨c, c⟩, fsOut, alerts) := by
  have hnp : ¬cycleProceeds inp.fetches c := by
    rintro ⟨-, hst⟩
    exact hst (List.all_eq_true.mpr h)
  exact run_iteration_skips W inp c fs hnp

/-- Witness for C2: a concrete cycle whose three fetched feeds all carry
header timestamps at or below their cursors; nothing is written. -/
theorem C2_all_stale_frame_witness :
    ∃ fsOut alerts, run_iteration idWriters
        ⟨[("u1", .success ⟨"u1", .vehiclePositions, some 100⟩),
          ("u2", .success ⟨"u2", .tripUpdates, some 40⟩),
          ("u3", .success ⟨"u3", .alerts, some 75⟩)], false, 0, 7, none⟩
        ⟨⟨[(.vehiclePositions, 100), (.tripUpdates, 40), (.alerts, 75)], [], [], [], []⟩,
         ⟨[(.vehiclePositions, 100), (.tripUpdates, 40), (.alerts, 75)], [], [], [], []⟩⟩ [] =
      (.ok false,
        ⟨⟨[(.vehiclePositions, 100), (.tripUpdates, 40), (.alerts, 75)], [], [], [], []⟩,
         ⟨[(.vehiclePositions, 100), (.tripUpdates, 40), (.alerts, 75)], [], [], [], []⟩⟩,
        fsOut, alerts) :=
  C2_all_stale_frame idWriters _ _ [] (by decide)

/-- Counterexample to C2 as stated: the alerts feed is re-polled with
header timestamp 50, at or below its stored cursor 60, but the vehicle and
trip-update feeds are fresh, so the cycle proceeds and the alerts cursor is
overwritten from 60 to 50 — the stale feed's stored cursor is *not*
unchanged. -/
theorem C2_counterexample :
    header_is_stale (some 50) (some 60) = true ∧
      lookupKey (⟨[(.vehiclePositions, 40), (.tripUpdates, 40), (.alerts, 60)],
          [], [], [], []⟩ : DB).cursors .alerts = some 60 ∧
      lookupKey ((run_iteration idWriters
          ⟨[("u1", .success ⟨"u1", .vehiclePositions, some 100⟩),
            ("u2", .success ⟨"u2", .tripUpdates, some 100⟩),
            ("u3", .success ⟨"u3", .alerts, some 50⟩)], false, 0, 8, none⟩
          ⟨⟨[(.vehiclePositions, 40), (.tripUpdates, 40), (.alerts, 60)], [], [], [], []⟩,
           ⟨[(.vehiclePositions, 40), (.tripUpdates, 40), (.alerts, 60)], [], [], [], []⟩⟩
          []).2.1.committed.cursors) .alerts = some 50 := by
  refine ⟨by decide, by decide, by decide⟩

/-! ## Claim C10 -/

/-- C10: a feed kind with no stored cursor row, or with an absent or zero
header timestamp (normalised to `None` at fetch time), is never stale; a
cycle containing such a feed therefore passes the staleness check and —
outside dry-run mode, absent write errors, with all three kinds fetched and
classified — commits a snapshot. -/
theorem C10_absent_is_fresh (W : WriterSem) (inp : IterInput) (c : DB) (fs : FailureState)
    (env : Envelope)
    (hd : inp.dry_run = false) (hf : inp.failAt = none)
    (h3 : ((successEnvs inp.fetches).map (·.feed_type)).dedup.length = 3)
    (henv : env ∈ successEnvs inp.fetches)
    (habs : env.header_timestamp = none ∨ lookupKey c.cursors env.feed_type = none) :
    (∀ p, header_is_stale none p = false) ∧
      (∀ h', header_is_stale h' none = false) ∧
      normalize_header none = none ∧
      normalize_header (some 0) = none ∧
      ∃ fsOut alerts db',
        run_iteration W inp ⟨c, c⟩ fs = (.ok true, ⟨db', db'⟩, fsOut, alerts) ∧
          db'.snapshots = inp.snapshot_id :: c.snapshots := by
  refine ⟨fun p => by cases p <;> rfl, fun h' => by cases h' <;> rfl, rfl, rfl, ?_⟩
  refine run_iteration_commits W inp c fs hd hf ⟨h3, fun hall => ?_⟩
  have := List.all_eq_true.mp hall env henv
  rcases habs with habs | habs <;> rw [habs] at this
  · simp [header_is_stale] at this
  · cases env.header_timestamp <;> simp [header_is_stale] at this

/-- Witness for C10: first run against an empty cursor table — every feed
lacks a cursor row, the cycle proceeds and commits snapshot 3. -/
theorem C10_absent_is_fresh_witness :
    (∀ p, header_is_stale none p = false) ∧
      (∀ h', header_is_stale h' none = false) ∧
      normalize_header none = none ∧
      normalize_header (some 0) = none ∧
      ∃ fsOut alerts db',
        run_iteration idWriters
          ⟨[("u1", .success ⟨"u1", .vehiclePositions, some 100⟩),
            ("u2", .success ⟨"u2", .tripUpdates, some 50⟩),
            ("u3", .success ⟨"u3", .alerts, some 75⟩)], false, 0, 3, none⟩
          ⟨⟨[], [], [], [], []⟩, ⟨[], [], [], [], []⟩⟩ [] =
          (.ok true, ⟨db', db'⟩, fsOut, alerts) ∧ db'.snapshots = [3] :=
  C10_absent_is_fresh idWriters _ ⟨[], [], [], [], []⟩ []
    ⟨"u1", .vehiclePositions, some 100⟩ rfl rfl (by decide) (by decide) (by decide)

/-! ## Claim C4 -/

/-- C4 (amended): every cycle's writes run in one transaction: a cycle that
returns normally leaves the transaction closed (pending equals committed,
the transaction having been committed once at the end or rolled back), and
a cycle that raises during the write phase leaves the committed state
exactly as it was before the cycle — no partial snapshot persists.  The
original claim's recovery clause fails: the write-phase exception is not
caught anywhere, so the process terminates instead of counting a failed
cycle and retrying on the next schedule (see the counterexample). -/
theorem C4_transaction (W : WriterSem) (inp : IterInput) (conn : Conn) (fs : FailureState) :
    ((run_iteration W inp conn fs).1 = .error () →
        (run_iteration W inp conn fs).2.1.committed = conn.committed) ∧
      (∀ b, (run_iteration W inp conn fs).1 = .ok b →
        (run_iteration W inp conn fs).2.1.pending = (run_iteration W inp conn fs).2.1.committed) := by
  have hc1 := processFetches_committed inp.threshold inp.fetches conn fs
  rcases hp : processFetches inp.threshold inp.fetches conn fs with ⟨envs, conn1, fs1, al⟩
  rw [hp] at hc1
  simp only [run_iteration, hp]
  by_cases h3 : (envs.map (·.feed_type)).dedup.length ≠ 3
  · simp [h3, Conn.rollback, hc1]
  · by_cases hst : (envs.all
        (fun env => header_is_stale env.header_timestamp
          (load_feed_cursors conn1.pending env.feed_type))) = true
    · simp [h3, hst, Conn.rollback, hc1]
    · by_cases hdry : inp.dry_run = true
      · simp [h3, hst, hdry, Conn.rollback, hc1]
      · rw [if_neg h3, if_neg hst, if_neg hdry]
        rcases hrs : runSteps inp.failAt 0
            (writeSteps W inp.snapshot_id (index_envelopes envs) ++ [id]) conn1.pending with
          db' | db'
        · exact ⟨fun _ => hc1, fun b hb => by simp at hb⟩
        · exact ⟨fun hco => by simp at hco, fun b _ => rfl⟩

/-- Witness for C4: applying the atomicity half at a concrete cycle whose
first write statement raises — the committed store is untouched. -/
theorem C4_transaction_witness :
    (run_iteration idWriters
        ⟨[("u1", .success ⟨"u1", .vehiclePositions, some 100⟩),
          ("u2", .success ⟨"u2", .tripUpdates, some 100⟩),
          ("u3", .success ⟨"u3", .alerts, some 50⟩)], false, 0, 9, some 0⟩
        ⟨⟨[(.vehiclePositions, 40), (.tripUpdates, 40), (.alerts, 60)], [], [], [], []⟩,
         ⟨[(.vehiclePositions, 40), (.tripUpdates, 40), (.alerts, 60)], [], [], [], []⟩⟩
        []).2.1.committed =
      ⟨[(.vehiclePositions, 40), (.tripUpdates, 40), (.alerts, 60)], [], [], [], []⟩ :=
  (C4_transaction idWriters _ _ []).1 rfl

/-- Counterexample to C4's recovery clause: a write-phase exception in the
first cycle escapes the polling loop (modelling the uncaught exception in
`main`, whose `try` block has only a `finally`), so the loop ends with an
error and the second scheduled cycle — which on its own would run fine —
never executes; the cycle is not retried on the next schedule. -/
theorem C4_counterexample :
    poll_loop idWriters
        [⟨[("u1", .success ⟨"u1", .vehiclePositions, some 100⟩),
           ("u2", .success ⟨"u2", .tripUpdates, some 100⟩),
           ("u3", .success ⟨"u3", .alerts, some 50⟩)], false, 0, 9, some 0⟩,
         ⟨[("u1", .success ⟨"u1", .vehiclePositions, some 100⟩),
           ("u2", .success ⟨"u2", .tripUpdates, some 100⟩),
           ("u3", .success ⟨"u3", .alerts, some 50⟩)], false, 0, 10, none⟩]
        ⟨⟨[(.vehiclePositions, 40), (.tripUpdates, 40), (.alerts, 60)], [], [], [], []⟩,
         ⟨[(.vehiclePositions, 40), (.tripUpdates, 40), (.alerts, 60)], [], [], [], []⟩⟩
        [] = .error () ∧
      (run_iteration idWriters
          ⟨[("u1", .success ⟨"u1", .vehiclePositions, some 100⟩),
            ("u2", .success ⟨"u2", .tripUpdates, some 100⟩),
            ("u3", .success ⟨"u3", .alerts, some 50⟩)], false, 0, 10, none⟩
          ⟨⟨[(.vehiclePositions, 40), (.tripUpdates, 40), (.alerts, 60)], [], [], [], []⟩,
           ⟨[(.vehiclePositions, 40), (.tripUpdates, 40), (.alerts, 60)], [], [], [], []⟩⟩
          []).1 = .ok true := by
  exact ⟨rfl, rfl⟩

/-! ## Claim C3 -/

/-- C3 (amended): the classifier's decision is made at the *first* entity
carrying any payload — tested vehicle, then trip-update, then alert on that
entity alone — not by a global any-vehicle-first scan; only a message with
no payload-bearing entity falls back to lowercased-URL substring matching
on "vehicle", "trip", "alert" in that order, and classification fails when
none of these match. -/
theorem C3_first_entity_decides (url : String) (es : List Entity) :
    classify_feed url es = classifyAmendedOrder url es := by
  induction es with
  | nil => rfl
  | cons e rest ih =>
    by_cases hv : e.hasVehicle
    · simp [classify_feed, classifyEntities, classifyAmendedOrder, List.find?, hv]
    · by_cases ht : e.hasTripUpdate
      · simp [classify_feed, classifyEntities, classifyAmendedOrder, List.find?, hv, ht]
      · by_cases ha : e.hasAlert
        · simp [classify_feed, classifyEntities, classifyAmendedOrder, List.find?, hv, ht, ha]
        · have h1 : classifyEntities (e :: rest) = classifyEntities rest := by
            simp [classifyEntities, hv, ht, ha]
          have h2 : (e :: rest).find? (fun x => x.hasVehicle || x.hasTripUpdate || x.hasAlert) =
              rest.find? (fun x => x.hasVehicle || x.hasTripUpdate || x.hasAlert) := by
            simp [List.find?, hv, ht, ha]
          rw [classify_feed, h1, classifyAmendedOrder, h2, ← classifyAmendedOrder, ← ih,
            classify_feed]

/-- Counterexample to C3 as stated: a message whose first entity carries a
trip-update payload and whose second carries a vehicle-position payload is
classified trip-updates by the code, while the claim's decision order (any
vehicle-position entity anywhere wins first) classifies it
vehicle-positions. -/
theorem C3_counterexample :
    classify_feed "http://example.com/feed"
        [⟨false, true, false⟩, ⟨true, false, false⟩] = .ok .tripUpdates ∧
      classifyClaimOrder "http://example.com/feed"
        [⟨false, true, false⟩, ⟨true, false, false⟩] = .ok .vehiclePositions ∧
      (Except.ok FeedType.tripUpdates : Except String FeedType) ≠ .ok .vehiclePositions := by
  refine ⟨rfl, rfl, fun h => ?_⟩
  simp at h

/-! ## Claim C8 -/

/-- A streak of `n` consecutive fetch failures for one URL, starting from
the fresh per-URL state: the final state together with the number of
alerts dispatched during the streak. -/
def run_fail_streak (t : Nat) : Nat → FailEntry × Nat
  | 0 => (⟨0, false⟩, 0)
  | n + 1 =>
    let (st, a) := run_fail_streak t n
    let (st', alerted) := fail_step t st
    (st', a + (if alerted then 1 else 0))

theorem run_fail_streak_spec (t n : Nat) (ht : 0 < t) :
    run_fail_streak t n = (⟨n, decide (t ≤ n)⟩, if t ≤ n then 1 else 0) := by
  induction n with
  | zero =>
    have h0 : ¬t ≤ 0 := Nat.not_le.mpr ht
    simp [run_fail_streak, h0]
  | succ n ih =>
    rw [run_fail_streak, ih]
    by_cases hn : t ≤ n
    · have hn1 : t ≤ n + 1 := Nat.le_succ_of_le hn
      simp [fail_step, hn, hn1, ht]
    · by_cases hn1 : t ≤ n + 1
      · simp [fail_step, hn, hn1, ht]
      · simp [fail_step, hn, hn1, ht]

/-- C8: per-URL failure tracking: (a) each fetch failure increments the
consecutive-failure counter by exactly one; (b) a success resets the
counter to zero and clears the alert flag; (c) over a streak of `n`
consecutive failures with a positive threshold `t`, exactly one alert is
dispatched when the streak reaches the threshold and none otherwise — never
a second alert for the same streak; (d) the streak is marked as alerted
exactly from the moment the threshold is reached. -/
theorem C8_failure_tracking (t n : Nat) (ht : 0 < t) :
    (∀ st : FailEntry, (fail_step t st).1.count = st.count + 1) ∧
      (∀ st : FailEntry, success_step st = ⟨0, false⟩) ∧
      ((run_fail_streak t n).2 = if t ≤ n then 1 else 0) ∧
      ((run_fail_streak t n).1.alert_sent = decide (t ≤ n)) := by
  refine ⟨fun st => rfl, fun st => ?_, ?_, ?_⟩
  · rcases st with ⟨c, a⟩
    rcases Nat.eq_zero_or_pos c with hc | hc
    · subst hc; cases a <;> simp [success_step]
    · simp [success_step, Nat.pos_iff_ne_zero.mp hc]
  · rw [run_fail_streak_spec t n ht]
  · rw [run_fail_streak_spec t n ht]

/-- Witness for C8: threshold 2, a streak of three consecutive failures —
exactly one alert in total (dispatched at the second failure, none at the
third). -/
theorem C8_failure_tracking_witness :
    0 < 2 ∧ (run_fail_streak 2 3).2 = 1 :=
  ⟨by decide, by simpa using (C8_failure_tracking 2 3 (by decide)).2.2.1⟩

/-! ## Claim C7 -/

theorem dbInsert_true_eq (t : List AlertChildRow) (r : AlertChildRow) :
    dbInsert true t r = .ok (if t.any (childKeyEq r) = true then t else t ++ [r]) := by
  unfold dbInsert
  split <;> simp_all

theorem anyKey_iff (t : List AlertChildRow) (r : AlertChildRow) :
    t.any (childKeyEq r) = true ↔ r ∈ t := by
  rw [List.any_eq_true]
  constructor
  · rintro ⟨x, hx, he⟩
    have hrx : r = x := by simpa [childKeyEq] using he
    rwa [hrx]
  · intro hr
    exact ⟨r, hr, by simp [childKeyEq]⟩

theorem insert_alert_children_ok (rows t : List AlertChildRow) :
    ∃ t', insert_alert_children t rows = .ok t' := by
  induction rows generalizing t with
  | nil => exact ⟨t, rfl⟩
  | cons r rest ih =>
    obtain ⟨t', h⟩ := ih (if t.any (childKeyEq r) = true then t else t ++ [r])
    exact ⟨t', by rw [insert_alert_children, dbInsert_true_eq]; exact h⟩

theorem insert_alert_children_mono (rows t t' : List AlertChildRow)
    (h : insert_alert_children t rows = .ok t') : t ⊆ t' := by
  induction rows generalizing t with
  | nil =>
    simp only [insert_alert_children, Except.ok.injEq] at h
    subst h
    exact fun x hx => hx
  | cons r rest ih =>
    rw [insert_alert_children, dbInsert_true_eq] at h
    have h' : insert_alert_children (if t.any (childKeyEq r) = true then t else t ++ [r]) rest =
        .ok t' := h
    have hsub : t ⊆ (if t.any (childKeyEq r) = true then t else t ++ [r]) := by
      split
      · exact fun x hx => hx
      · exact List.subset_append_left _ _
    exact hsub.trans (ih _ h')

theorem insert_alert_children_mem (rows t t' : List AlertChildRow)
    (h : insert_alert_children t rows = .ok t') : ∀ r ∈ rows, r ∈ t' := by
  induction rows generalizing t with
  | nil => intro r hr; cases hr
  | cons r0 rest ih =>
    rw [insert_alert_children, dbInsert_true_eq] at h
    have h' : insert_alert_children (if t.any (childKeyEq r0) = true then t else t ++ [r0]) rest =
        .ok t' := h
    intro r hr
    rcases List.mem_cons.mp hr with hr | hr
    · subst hr
      refine insert_alert_children_mono rest _ t' h' ?_
      split
      · exact (anyKey_iff t r).mp (by assumption)
      · exact List.mem_append_right t (List.mem_singleton.mpr rfl)
    · exact ih _ h' r hr

theorem insert_alert_children_noop (rows t : List AlertChildRow)
    (h : ∀ r ∈ rows, r ∈ t) : insert_alert_children t rows = .ok t := by
  induction rows with
  | nil => rfl
  | cons r0 rest ih =>
    rw [insert_alert_children, dbInsert_true_eq,
      if_pos ((anyKey_iff t r0).mpr (h r0 (List.mem_cons_self r0 rest)))]
    exact ih fun r hr => h r (List.mem_cons_of_mem r0 hr)

theorem insert_alert_children_nodup (rows t t' : List AlertChildRow)
    (hn : t.Nodup) (h : insert_alert_children t rows = .ok t') : t'.Nodup := by
  induction rows generalizing t with
  | nil =>
    simp only [insert_alert_children, Except.ok.injEq] at h
    subst h
    exact hn
  | cons r0 rest ih =>
    rw [insert_alert_children, dbInsert_true_eq] at h
    have h' : insert_alert_children (if t.any (childKeyEq r0) = true then t else t ++ [r0]) rest =
        .ok t' := h
    refine ih _ ?_ h'
    split
    · exact hn
    · rename_i hmem
      rw [List.nodup_append]
      exact ⟨hn, List.nodup_singleton r0,
        fun a ha hb => (fun hmem => hmem ((anyKey_iff t r0).mpr
          (by rwa [List.mem_singleton.mp hb] at ha))) hmem⟩

/-- C7: re-running the alert child-row inserts (affected routes, stops,
trips, active periods — all issued with the conflict-ignoring insert) for
keys already present in the snapshot neither raises an error nor creates a
duplicate: the insert always succeeds, re-running it with the same rows
returns the identical table, and tables with pairwise-distinct keys stay
duplicate-free. -/
theorem C7_child_insert_idempotent (t rows : List AlertChildRow) :
    (∃ t', insert_alert_children t rows = .ok t' ∧
        insert_alert_children t' rows = .ok t') ∧
      (t.Nodup → ∀ t', insert_alert_children t rows = .ok t' → t'.Nodup) := by
  constructor
  · obtain ⟨t', h⟩ := insert_alert_children_ok rows t
    exact ⟨t', h, insert_alert_children_noop rows t' (insert_alert_children_mem rows t t' h)⟩
  · exact fun hn t' h => insert_alert_children_nodup rows t t' hn h

/-- Witness for C7: inserting an (alert, route) child row that is already
present in the snapshot succeeds, changes nothing, and keeps the table
duplicate-free. -/
theorem C7_child_insert_idempotent_witness :
    (∃ t', insert_alert_children [⟨1, "a1", "R5"⟩] [⟨1, "a1", "R5"⟩] = .ok t' ∧
        insert_alert_children t' [⟨1, "a1", "R5"⟩] = .ok t') ∧
      ∀ t', insert_alert_children [⟨1, "a1", "R5"⟩] [⟨1, "a1", "R5"⟩] = .ok t' → t'.Nodup :=
  ⟨(C7_child_insert_idempotent [⟨1, "a1", "R5"⟩] [⟨1, "a1", "R5"⟩]).1,
    (C7_child_insert_idempotent [⟨1, "a1", "R5"⟩] [⟨1, "a1", "R5"⟩]).2 (by simp)⟩

/-! ## Claim C9 -/

/-- C9 (amended): the gates consult only the *recorded* maintenance state.
A cycle triggers the static refresh exactly when auto-refresh is on, the
run is not a dry run, the time of day has passed the refresh threshold and
no refresh is recorded for today — the refresh task keeps no separate
last-attempt date and no minimum inter-run interval.  A cycle triggers the
archive exactly when the refresh did not fire, auto-archival is on, the run
is not a dry run, the time of day has passed the archive threshold, neither
a success nor an attempt is recorded for today, and the recorded
next-archive date (when set) has been reached.  The recorded next-archive
date can lie before last-success-plus-interval (the startup archive path
resets it to the startup day and records a success only when the startup
run finishes past the archive time of day), so the interval-since-success
condition of the original claim is not enforced — see the counterexample. -/
theorem C9_gate_characterization (ar aa dr : Bool) (lastR : Option Nat) (s : ArchiveState)
    (today t θr θa : Nat) :
    (cycle_maintenance ar aa dr lastR s today t θr θa = some .refresh ↔
        (ar = true ∧ dr = false ∧ θr ≤ t ∧ lastR ≠ some today)) ∧
      (cycle_maintenance ar aa dr lastR s today t θr θa = some .archive ↔
        (¬(ar = true ∧ dr = false ∧ θr ≤ t ∧ lastR ≠ some today) ∧
          aa = true ∧ dr = false ∧ θa ≤ t ∧
          s.last_archive_date ≠ some today ∧ s.last_attempt_date ≠ some today ∧
          (s.next_archive_date = none ∨
            ∃ nd, s.next_archive_date = some nd ∧ nd ≤ today))) := by
  have hr : (ar && !dr && refresh_gate lastR today t θr) = true ↔
      (ar = true ∧ dr = false ∧ θr ≤ t ∧ lastR ≠ some today) := by
    simp [refresh_gate, and_assoc]
  have ha : (aa && !dr && archive_gate s today t θa) = true ↔
      (aa = true ∧ dr = false ∧ θa ≤ t ∧
        s.last_archive_date ≠ some today ∧ s.last_attempt_date ≠ some today ∧
        (s.next_archive_date = none ∨
          ∃ nd, s.next_archive_date = some nd ∧ nd ≤ today)) := by
    rcases hnd : s.next_archive_date with - | nd <;>
      simp [archive_gate, hnd, and_assoc]
  constructor
  · rw [cycle_maintenance, ← hr]
    by_cases hg : (ar && !dr && refresh_gate lastR today t θr) = true
    · simp [hg]
    · simp only [Bool.not_eq_true] at hg
      rw [if_neg (by simp [hg])]
      split <;> simp [hg]
  · rw [cycle_maintenance, ← hr, ← ha]
    by_cases hg : (ar && !dr && refresh_gate lastR today t θr) = true
    · simp [hg]
    · simp only [Bool.not_eq_true] at hg
      rw [if_neg (by simp [hg])]
      by_cases hb : (aa && !dr && archive_gate s today t θa) = true
      · simp [hg, hb]
      · simp only [Bool.not_eq_true] at hb
        rw [if_neg (by simp [hb])]
        simp [hg, hb]

/-- Witness for C9: with refresh disabled, a state one day past its
recorded next-archive date triggers the archive at 02:05, and exactly the
amended conditions hold. -/
theorem C9_gate_characterization_witness :
    (cycle_maintenance false true false none ⟨some 3, some 4, some 5⟩ 5 125 120 120 =
        some .refresh ↔
      (false = true ∧ false = false ∧ 120 ≤ 125 ∧ (none : Option Nat) ≠ some 5)) ∧
    (cycle_maintenance false true false none ⟨some 3, some 4, some 5⟩ 5 125 120 120 =
        some .archive ↔
      (¬(false = true ∧ false = false ∧ 120 ≤ 125 ∧ (none : Option Nat) ≠ some 5) ∧
        true = true ∧ false = false ∧ 120 ≤ 125 ∧
        (some 3 : Option Nat) ≠ some 5 ∧ (some 4 : Option Nat) ≠ some 5 ∧
        ((some 5 : Option Nat) = none ∨ ∃ nd, (some 5 : Option Nat) = some nd ∧ nd ≤ 5))) :=
  C9_gate_characterization false true false none ⟨some 3, some 4, some 5⟩ 5 125 120 120

/-- Counterexample to C9 as stated: the archive history holds a success on
day 10 and the interval is 7 days.  The startup archive run on day 11
succeeds at 01:00, before the 02:00 archive threshold, so no success is
recorded and the next-archive date stays at the forced startup value,
day 11.  The cycle on day 12 at 02:10 then triggers the archive although
the minimum inter-run interval has not elapsed since the task's last
success (neither the recorded one, day 10, nor the actual one, day 11). -/
theorem C9_counterexample :
    startupArchive (initArchiveState (some 10) 11 true 7) 11 60 120 true 7 =
        ⟨some 10, some 11, some 11⟩ ∧
      cycle_maintenance false true false none
        (startupArchive (initArchiveState (some 10) 11 true 7) 11 60 120 true 7)
        12 130 120 120 = some .archive ∧
      intervalElapsed
        (startupArchive (initArchiveState (some 10) 11 true 7) 11 60 120 true 7).last_archive_date
        12 7 = false := by
  refine ⟨by decide, by decide, by decide⟩

/-! ## Cache consistency for `DimLookup`

The caches only memoise queries against the immutable reference tables, so
every lookup has a state-independent value; `Consistent` states that every
cache entry agrees with the tables, and is preserved by every method. -/

/-- The route `get_route_for_trip` caches for an existing trip row (`None`
both for a missing row and a SQL `NULL` route). -/
def routePure (sd : StaticData) (t : String) : Option String :=
  match lookupKey sd.dim_trips t with
  | none => none
  | some none => none
  | some (some r) => some r

/-- The state-independent value of `ensure_stop`. -/
def ensureStopPure (sd : StaticData) (s : Option String) : Bool :=
  match s with
  | none => false
  | some x => if x.isEmpty then false else sd.dim_stops.contains x

/-- The state-independent value of `ensure_trip`. -/
def ensureTripPure (sd : StaticData) (t : Option String) : Bool :=
  match t with
  | none => false
  | some x => if x.isEmpty then false else (lookupKey sd.dim_trips x).isSome

/-- The state-independent value of `ensure_route`. -/
def ensureRoutePure (sd : StaticData) (r : Option String) : Bool :=
  match r with
  | none => false
  | some x => if x.isEmpty then false else sd.dim_routes.contains x

/-- The state-independent value of `get_route_for_trip`. -/
def routeForTripPure (sd : StaticData) (t : Option String) : Option String :=
  match t with
  | none => none
  | some x => if x.isEmpty then none else routePure sd x

/-- The state-independent value of `get_stop_context`. -/
def contextPure (sd : StaticData) (tid sid : Option String) :
    Option (Nat × StopTimeEntry) :=
  match tid, sid with
  | some t, some s =>
    if t.isEmpty || s.isEmpty then none
    else
      let p := tripProfilePure sd t
      if p.isEmpty then none
      else
        match p.findIdx? (fun e => e.stop_id = s) with
        | some i => (p.get? i).map (fun e => (i, e))
        | none => none
  | _, _ => none

/-- The state-independent value of `get_adjacent_stop`. -/
def adjacentPure (sd : StaticData) (tid : Option String) (i : Int) (fwd : Bool) :
    Option StopTimeEntry :=
  match tid with
  | none => none
  | some t =>
    let p := tripProfilePure sd t
    if p.isEmpty then none
    else
      let ni := i + (if fwd then 1 else -1)
      if 0 ≤ ni ∧ ni < (p.length : Int) then p.get? ni.toNat else none

/-- Every cache entry of a `DimLookup` state agrees with the reference
tables, the missing-trip set is duplicate-free, and a cached empty profile
is always accompanied by a missing-trip record. -/
structure Consistent (sd : StaticData) (st : DimState) : Prop where
  trip : ∀ t b, lookupKey st.trip_exists t = some b → b = (lookupKey sd.dim_trips t).isSome
  route : ∀ r b, lookupKey st.route_exists r = some b → b = sd.dim_routes.contains r
  stop : ∀ s b, lookupKey st.stop_exists s = some b → b = sd.dim_stops.contains s
  routes : ∀ t r, lookupKey st.trip_routes t = some r → r = routePure sd t
  profiles : ∀ t p, lookupKey st.trip_profiles t = some p → p = tripProfilePure sd t
  missNodup : st.missing_trip.Nodup
  profMiss : ∀ t p, lookupKey st.trip_profiles t = some p → p = [] → t ∈ st.missing_trip

theorem consistent_fresh (sd : StaticData) : Consistent sd DimState.fresh := by
  refine ⟨?_, ?_, ?_, ?_, ?_, List.nodup_nil, ?_⟩ <;>
    intro a b hab <;> simp [DimState.fresh, lookupKey] at hab

theorem lookupKey_setKey {κ α : Type} [DecidableEq κ]
    (l : List (κ × α)) (k : κ) (v : α) (k' : κ) :
    lookupKey (setKey l k v) k' = if k = k' then some v else lookupKey l k' := by
  induction l with
  | nil => simp [setKey, lookupKey]
  | cons hd tl ih =>
    obtain ⟨k0, v0⟩ := hd
    by_cases h0 : k0 = k
    · subst h0
      simp only [setKey, if_pos rfl, lookupKey]
      by_cases h1 : k0 = k' <;> simp [h1]
    · simp only [setKey, if_neg h0, lookupKey]
      by_cases h1 : k0 = k'
      · subst h1
        simp [Ne.symm h0]
      · rw [if_neg h1, if_neg h1]
        exact ih

theorem mem_addMissing (l : List String) (x y : String) :
    y ∈ addMissing l x ↔ y = x ∨ y ∈ l := by
  unfold addMissing
  split <;> rename_i hx
  · constructor
    · exact fun h => Or.inr h
    · rintro (rfl | h)
      · exact hx
      · exact h
  · simp [List.mem_append, or_comm]

theorem self_mem_addMissing (l : List String) (x : String) : x ∈ addMissing l x :=
  (mem_addMissing l x x).mpr (Or.inl rfl)

theorem subset_addMissing (l : List String) (x : String) : l ⊆ addMissing l x :=
  fun y hy => (mem_addMissing l x y).mpr (Or.inr hy)

theorem nodup_addMissing (l : List String) (x : String) (h : l.Nodup) :
    (addMissing l x).Nodup := by
  unfold addMissing
  split <;> rename_i hx
  · exact h
  · rw [List.nodup_append]
    exact ⟨h, List.nodup_singleton x, fun a ha hb => hx (by rwa [List.mem_singleton.mp hb] at ha)⟩

theorem ensure_stop_spec (sd : StaticData) (st : DimState) (s : Option String)
    (h : Consistent sd st) :
    (ensure_stop sd st s).1 = ensureStopPure sd s ∧
      Consistent sd (ensure_stop sd st s).2 ∧
      st.missing_trip ⊆ (ensure_stop sd st s).2.missing_trip := by
  rcases s with - | x
  · exact ⟨rfl, h, fun a ha => ha⟩
  by_cases hx : x.isEmpty
  · simp only [ensure_stop, ensureStopPure, if_pos hx]
    exact ⟨by trivial, h, fun a ha => ha⟩
  rcases hc : lookupKey st.stop_exists x with - | b
  · simp only [ensure_stop, ensureStopPure, if_neg hx, hc]
    by_cases hex : sd.dim_stops.contains x = true
    · simp only [hex, if_pos rfl, if_true]
      refine ⟨by trivial, ⟨h.trip, h.route, ?_, h.routes, h.profiles, h.missNodup, h.profMiss⟩,
        fun a ha => ha⟩
      intro s' b' hb'
      rw [lookupKey_setKey] at hb'
      by_cases hxs : x = s'
      · rw [if_pos hxs] at hb'
        cases hb'
        rw [← hxs, hex]
      · rw [if_neg hxs] at hb'
        exact h.stop s' b' hb'
    · rw [Bool.not_eq_true] at hex
      simp only [hex, Bool.false_eq_true, if_false]
      refine ⟨by trivial, ⟨h.trip, h.route, ?_, h.routes, h.profiles, h.missNodup, h.profMiss⟩,
        fun a ha => ha⟩
      intro s' b' hb'
      rw [lookupKey_setKey] at hb'
      by_cases hxs : x = s'
      · rw [if_pos hxs] at hb'
        cases hb'
        rw [← hxs, hex]
      · rw [if_neg hxs] at hb'
        exact h.stop s' b' hb'
  · simp only [ensure_stop, ensureStopPure, if_neg hx, hc]
    exact ⟨h.stop x b hc, h, fun a ha => ha⟩

theorem ensure_route_spec (sd : StaticData) (st : DimState) (r : Option String)
    (h : Consistent sd st) :
    (ensure_route sd st r).1 = ensureRoutePure sd r ∧
      Consistent sd (ensure_route sd st r).2 ∧
      st.missing_trip ⊆ (ensure_route sd st r).2.missing_trip := by
  rcases r with - | x
  · exact ⟨rfl, h, fun a ha => ha⟩
  by_cases hx : x.isEmpty
  · simp only [ensure_route, ensureRoutePure, if_pos hx]
    exact ⟨by trivial, h, fun a ha => ha⟩
  rcases hc : lookupKey st.route_exists x with - | b
  · simp only [ensure_route, ensureRoutePure, if_neg hx, hc]
    by_cases hex : sd.dim_routes.contains x = true
    · simp only [hex, if_pos rfl, if_true]
      refine ⟨by trivial, ⟨h.trip, ?_, h.stop, h.routes, h.profiles, h.missNodup, h.profMiss⟩,
        fun a ha => ha⟩
      intro s' b' hb'
      rw [lookupKey_setKey] at hb'
      by_cases hxs : x = s'
      · rw [if_pos hxs] at hb'
        cases hb'
        rw [← hxs, hex]
      · rw [if_neg hxs] at hb'
        exact h.route s' b' hb'
    · rw [Bool.not_eq_true] at hex
      simp only [hex, Bool.false_eq_true, if_false]
      refine ⟨by trivial, ⟨h.trip, ?_, h.stop, h.routes, h.profiles, h.missNodup, h.profMiss⟩,
        fun a ha => ha⟩
      intro s' b' hb'
      rw [lookupKey_setKey] at hb'
      by_cases hxs : x = s'
      · rw [if_pos hxs] at hb'
        cases hb'
        rw [← hxs, hex]
      · rw [if_neg hxs] at hb'
        exact h.route s' b' hb'
  · simp only [ensure_route, ensureRoutePure, if_neg hx, hc]
    exact ⟨h.route x b hc, h, fun a ha => ha⟩

theorem ensure_trip_spec (sd : StaticData) (st : DimState) (t : Option String)
    (h : Consistent sd st) :
    (ensure_trip sd st t).1 = ensureTripPure sd t ∧
      Consistent sd (ensure_trip sd st t).2 ∧
      st.missing_trip ⊆ (ensure_trip sd st t).2.missing_trip := by
  rcases t with - | x
  · exact ⟨rfl, h, fun a ha => ha⟩
  by_cases hx : x.isEmpty
  · simp only [ensure_trip, ensureTripPure, if_pos hx]
    exact ⟨by trivial, h, fun a ha => ha⟩
  rcases hc : lookupKey st.trip_exists x with - | b
  · simp only [ensure_trip, ensureTripPure, if_neg hx, hc]
    by_cases hex : (lookupKey sd.dim_trips x).isSome = true
    · simp only [hex, if_pos rfl, if_true]
      refine ⟨by trivial, ⟨?_, h.route, h.stop, h.routes, h.profiles, h.missNodup, h.profMiss⟩,
        fun a ha => ha⟩
      intro s' b' hb'
      rw [lookupKey_setKey] at hb'
      by_cases hxs : x = s'
      · rw [if_pos hxs] at hb'
        cases hb'
        rw [← hxs, hex]
      · rw [if_neg hxs] at hb'
        exact h.trip s' b' hb'
    · rw [Bool.not_eq_true] at hex
      simp only [hex, Bool.false_eq_true, if_false]
      refine ⟨by trivial, ⟨?_, h.route, h.stop, h.routes, h.profiles,
        nodup_addMissing _ _ h.missNodup,
        fun t' p' hp' he => subset_addMissing _ _ (h.profMiss t' p' hp' he)⟩,
        subset_addMissing _ _⟩
      intro s' b' hb'
      rw [lookupKey_setKey] at hb'
      by_cases hxs : x = s'
      · rw [if_pos hxs] at hb'
        cases hb'
        rw [← hxs, hex]
      · rw [if_neg hxs] at hb'
        exact h.trip s' b' hb'
  · simp only [ensure_trip, ensureTripPure, if_neg hx, hc]
    exact ⟨h.trip x b hc, h, fun a ha => ha⟩

theorem get_route_for_trip_spec (sd : StaticData) (st : DimState) (t : Option String)
    (h : Consistent sd st) :
    (get_route_for_trip sd st t).1 = routeForTripPure sd t ∧
      Consistent sd (get_route_for_trip sd st t).2 ∧
      st.missing_trip ⊆ (get_route_for_trip sd st t).2.missing_trip := by
  rcases t with - | x
  · exact ⟨rfl, h, fun a ha => ha⟩
  by_cases hx : x.isEmpty
  · simp only [get_route_for_trip, routeForTripPure, if_pos hx]
    exact ⟨by trivial, h, fun a ha => ha⟩
  rcases hc : lookupKey st.trip_routes x with - | r
  · simp only [get_route_for_trip, routeForTripPure, if_neg hx, hc]
    rcases hd : lookupKey sd.dim_trips x with - | ro
    · refine ⟨by simp [routePure, hd], ⟨h.trip, h.route, h.stop, ?_, h.profiles,
        nodup_addMissing _ _ h.missNodup,
        fun t' p' hp' he => subset_addMissing _ _ (h.profMiss t' p' hp' he)⟩,
        subset_addMissing _ _⟩
      intro t' r' hr'
      rw [lookupKey_setKey] at hr'
      by_cases hxt : x = t'
      · rw [if_pos hxt] at hr'
        cases hr'
        rw [← hxt]
        simp [routePure, hd]
      · rw [if_neg hxt] at hr'
        exact h.routes t' r' hr'
    · rcases ro with - | rr
      · refine ⟨by simp [routePure, hd], ⟨h.trip, h.route, h.stop, ?_, h.profiles,
          nodup_addMissing _ _ h.missNodup,
          fun t' p' hp' he => subset_addMissing _ _ (h.profMiss t' p' hp' he)⟩,
          subset_addMissing _ _⟩
        intro t' r' hr'
        rw [lookupKey_setKey] at hr'
        by_cases hxt : x = t'
        · rw [if_pos hxt] at hr'
          cases hr'
          rw [← hxt]
          simp [routePure, hd]
        · rw [if_neg hxt] at hr'
          exact h.routes t' r' hr'
      · have hro : routePure sd x = some rr := by simp [routePure, hd]
        have hfields : ∀ st2 : DimState,
            st2.trip_exists = st.trip_exists → st2.route_exists = st.route_exists →
            st2.stop_exists = st.stop_exists →
            st2.trip_routes = setKey st.trip_routes x (some rr) →
            st2.trip_profiles = st.trip_profiles →
            st2.missing_trip = st.missing_trip →
            Consistent sd st2 := by
          intro st2 e1 e2 e3 e4 e5 e6
          refine ⟨by rw [e1]; exact h.trip, by rw [e2]; exact h.route,
            by rw [e3]; exact h.stop, ?_, by rw [e5]; exact h.profiles,
            by rw [e6]; exact h.missNodup,
            by rw [e5, e6]; exact h.profMiss⟩
          rw [e4]
          intro t' r' hr'
          rw [lookupKey_setKey] at hr'
          by_cases hxt : x = t'
          · rw [if_pos hxt] at hr'
            cases hr'
            rw [← hxt, hro]
          · rw [if_neg hxt] at hr'
            exact h.routes t' r' hr'
        by_cases hre : rr.isEmpty
        · simp only [hre, if_pos rfl, if_true]
          exact ⟨by rw [hro], hfields _ rfl rfl rfl rfl rfl rfl, fun a ha => ha⟩
        · simp only [hre, Bool.false_eq_true, if_false]
          exact ⟨by rw [hro], hfields _ rfl rfl rfl rfl rfl rfl, fun a ha => ha⟩
  · simp only [get_route_for_trip, routeForTripPure, if_neg hx, hc]
    exact ⟨h.routes x r hc, h, fun a ha => ha⟩

theorem load_trip_profile_spec (sd : StaticData) (st : DimState) (t : String)
    (h : Consistent sd st) :
    (load_trip_profile sd st t).1 = tripProfilePure sd t ∧
      Consistent sd (load_trip_profile sd st t).2 ∧
      st.missing_trip ⊆ (load_trip_profile sd st t).2.missing_trip ∧
      (tripProfilePure sd t = [] → t ∈ (load_trip_profile sd st t).2.missing_trip) := by
  rcases hc : lookupKey st.trip_profiles t with - | p
  · rw [load_trip_profile, hc]
    by_cases hrows : (sortBySeq ((sd.dim_stop_times.filter (fun r => r.1 = t)).map (·.2))).isEmpty
    · have hpure0 : tripProfilePure sd t =
          match sd.csv_rows with
          | none => []
          | some csvRows => sortBySeq ((csvRows.filter (fun r => r.1 = t)).map (·.2)) := by
        rw [tripProfilePure, if_pos hrows]
      rcases hcsv : sd.csv_rows with - | csvRows
      · rw [hpure0, hcsv]
        simp only [if_pos hrows, hcsv]
        refine ⟨by trivial, ⟨h.trip, h.route, h.stop, h.routes, ?_,
          nodup_addMissing _ _ h.missNodup, ?_⟩,
          subset_addMissing _ _, fun _ => self_mem_addMissing _ _⟩
        · intro t' p' hp'
          rw [lookupKey_setKey] at hp'
          by_cases hxt : t = t'
          · rw [if_pos hxt] at hp'
            cases hp'
            rw [← hxt, hpure0, hcsv]
          · rw [if_neg hxt] at hp'
            exact h.profiles t' p' hp'
        · intro t' p' hp' he
          rw [lookupKey_setKey] at hp'
          by_cases hxt : t = t'
          · rw [← hxt]
            exact self_mem_addMissing _ _
          · rw [if_neg hxt] at hp'
            exact subset_addMissing _ _ (h.profMiss t' p' hp' he)
      · have hpure : tripProfilePure sd t =
            sortBySeq ((csvRows.filter (fun r => r.1 = t)).map (·.2)) := by
          rw [hpure0, hcsv]
        simp only [if_pos hrows, hcsv]
        by_cases hp : (sortBySeq ((csvRows.filter (fun r => r.1 = t)).map (·.2))).isEmpty
        · simp only [hp, if_pos rfl, if_true]
          refine ⟨hpure.symm, ⟨h.trip, h.route, h.stop, h.routes, ?_,
            nodup_addMissing _ _ h.missNodup, ?_⟩,
            subset_addMissing _ _, fun _ => self_mem_addMissing _ _⟩
          · intro t' p' hp'
            rw [lookupKey_setKey] at hp'
            by_cases hxt : t = t'
            · rw [if_pos hxt] at hp'
              cases hp'
              rw [← hxt, hpure]
            · rw [if_neg hxt] at hp'
              exact h.profiles t' p' hp'
          · intro t' p' hp' he
            rw [lookupKey_setKey] at hp'
            by_cases hxt : t = t'
            · rw [← hxt]
              exact self_mem_addMissing _ _
            · rw [if_neg hxt] at hp'
              exact subset_addMissing _ _ (h.profMiss t' p' hp' he)
        · simp only [hp, Bool.false_eq_true, if_false]
          have hne : tripProfilePure sd t ≠ [] := by
            rw [hpure]
            intro hcon
            rw [hcon] at hp
            exact hp rfl
          refine ⟨hpure.symm, ⟨h.trip, h.route, h.stop, h.routes, ?_,
            h.missNodup, ?_⟩, fun a ha => ha, fun hcon => absurd hcon hne⟩
          · intro t' p' hp'
            rw [lookupKey_setKey] at hp'
            by_cases hxt : t = t'
            · rw [if_pos hxt] at hp'
              cases hp'
              rw [← hxt, hpure]
            · rw [if_neg hxt] at hp'
              exact h.profiles t' p' hp'
          · intro t' p' hp' he
            rw [lookupKey_setKey] at hp'
            by_cases hxt : t = t'
            · rw [if_pos hxt] at hp'
              cases hp'
              exact absurd (hpure.trans he) hne
            · rw [if_neg hxt] at hp'
              exact h.profMiss t' p' hp' he
    · have hpure : tripProfilePure sd t =
          sortBySeq ((sd.dim_stop_times.filter (fun r => r.1 = t)).map (·.2)) := by
        rw [tripProfilePure, if_neg hrows]
      have hne : tripProfilePure sd t ≠ [] := by
        rw [hpure]
        intro hcon
        rw [hcon] at hrows
        exact hrows rfl
      simp only [if_neg hrows]
      refine ⟨hpure.symm, ⟨h.trip, h.route, h.stop, h.routes, ?_, h.missNodup, ?_⟩,
        fun a ha => ha, fun hcon => absurd hcon hne⟩
      · intro t' p' hp'
        rw [lookupKey_setKey] at hp'
        by_cases hxt : t = t'
        · rw [if_pos hxt] at hp'
          cases hp'
          rw [← hxt, hpure]
        · rw [if_neg hxt] at hp'
          exact h.profiles t' p' hp'
      · intro t' p' hp' he
        rw [lookupKey_setKey] at hp'
        by_cases hxt : t = t'
        · rw [if_pos hxt] at hp'
          cases hp'
          exact absurd (hpure.trans he) hne
        · rw [if_neg hxt] at hp'
          exact h.profMiss t' p' hp' he
  · rw [load_trip_profile, hc]
    exact ⟨h.profiles t p hc, h, fun a ha => ha,
      fun hpe => h.profMiss t p hc (by rw [h.profiles t p hc, hpe])⟩

theorem consistent_set_missing_stop (sd : StaticData) (st : DimState) (X : List String)
    (h : Consistent sd st) : Consistent sd { st with missing_stop := X } :=
  ⟨h.trip, h.route, h.stop, h.routes, h.profiles, h.missNodup, h.profMiss⟩

theorem get_stop_context_spec (sd : StaticData) (st : DimState) (tid sid : Option String)
    (h : Consistent sd st) :
    (get_stop_context sd st tid sid).1 = contextPure sd tid sid ∧
      Consistent sd (get_stop_context sd st tid sid).2 ∧
      st.missing_trip ⊆ (get_stop_context sd st tid sid).2.missing_trip := by
  rcases tid with - | t
  · rcases sid with - | s <;> exact ⟨rfl, h, fun a ha => ha⟩
  rcases sid with - | s
  · exact ⟨rfl, h, fun a ha => ha⟩
  by_cases hts : (t.isEmpty || s.isEmpty) = true
  · simp only [get_stop_context, contextPure, if_pos hts]
    exact ⟨by trivial, h, fun a ha => ha⟩
  · rcases hl : load_trip_profile sd st t with ⟨p, st1⟩
    have hspec := load_trip_profile_spec sd st t h
    rw [hl] at hspec
    obtain ⟨hv, hcons, hmono, -⟩ := hspec
    have hp : p = tripProfilePure sd t := hv
    simp only [get_stop_context, contextPure, if_neg hts, hl]
    rw [← hp]
    by_cases hpe : p.isEmpty
    · simp only [hpe, if_true]
      exact ⟨by trivial, hcons, hmono⟩
    · simp only [hpe, Bool.false_eq_true, if_false]
      cases hfi : p.findIdx? (fun e => e.stop_id = s) with
      | none => exact ⟨rfl, consistent_set_missing_stop sd st1 _ hcons, hmono⟩
      | some i => exact ⟨rfl, hcons, hmono⟩

theorem get_adjacent_stop_spec (sd : StaticData) (st : DimState) (tid : Option String)
    (i : Int) (fwd : Bool) (h : Consistent sd st) :
    (get_adjacent_stop sd st tid i fwd).1 = adjacentPure sd tid i fwd ∧
      Consistent sd (get_adjacent_stop sd st tid i fwd).2 ∧
      st.missing_trip ⊆ (get_adjacent_stop sd st tid i fwd).2.missing_trip := by
  rcases tid with - | t
  · exact ⟨rfl, h, fun a ha => ha⟩
  rcases hl : load_trip_profile sd st t with ⟨p, st1⟩
  have hspec := load_trip_profile_spec sd st t h
  rw [hl] at hspec
  obtain ⟨hv, hcons, hmono, -⟩ := hspec
  have hp : p = tripProfilePure sd t := hv
  simp only [get_adjacent_stop, adjacentPure, hl]
  rw [← hp]
  by_cases hpe : p.isEmpty
  · simp only [hpe, if_true]
    exact ⟨by trivial, hcons, hmono⟩
  · simp only [hpe, Bool.false_eq_true, if_false]
    by_cases hb : 0 ≤ i + (if fwd then 1 else -1) ∧ i + (if fwd then 1 else -1) < (p.length : Int)
    · rw [if_pos hb, if_pos hb]
      exact ⟨rfl, hcons, hmono⟩
    · rw [if_neg hb, if_neg hb]
      exact ⟨rfl, hcons, hmono⟩

/-! ## Claim C5 -/

/-- The current stop the extractor keeps: the entity's stop id when it is
truthy and exists in the stops dimension, else `None`. -/
def currentStopPure (sd : StaticData) (s : Option String) : Option String :=
  if ensureStopPure sd s then s else none

/-- The previous/next stop id the extractor emits for an adjacent timetable
entry: the entry's stop id when it exists in the stops dimension, else
`None`. -/
def stopFilter (sd : StaticData) (o : Option StopTimeEntry) : Option String :=
  match o with
  | none => none
  | some pe => if ensureStopPure sd (some pe.stop_id) then some pe.stop_id else none

/-- The next-stop sequence the extractor emits. -/
def seqFilter (sd : StaticData) (o : Option StopTimeEntry) : Option Int :=
  match o with
  | none => none
  | some ne => if ensureStopPure sd (some ne.stop_id) then some ne.stop_sequence else none

theorem contextPure_of_not_truthy (sd : StaticData) (tid sid : Option String)
    (h : ¬(truthy sid && truthy tid) = true) : contextPure sd tid sid = none := by
  rcases tid with - | t
  · rcases sid with - | s <;> rfl
  rcases sid with - | s
  · rfl
  have hts : (t.isEmpty || s.isEmpty) = true := by
    cases ht : t.isEmpty with
    | true => simp
    | false =>
      cases hs : s.isEmpty with
      | true => simp
      | false => exact absurd (by simp [truthy, ht, hs]) h
  rw [contextPure, if_pos hts]

/-- C5 (amended): for every vehicle entity the extractor emits a record
for, if the entity's current stop (truthy and present in the stops
dimension) resolves to a position in its trip's stop-sequence-sorted
timetable, the emitted previous/next stop are the entries adjacent to that
position *filtered through the stops dimension* — an adjacent entry whose
stop id is missing from the stops dimension is emitted as absent — and the
next-stop sequence accompanies the next stop; if no position resolves,
previous and next stop and the next-stop sequence are all absent, and no
error is raised (the extractor is total).  The original claim omits the
dimension filter on the adjacent entries. -/
theorem C5_adjacent_stops (sd : StaticData) (st : DimState) (e : VehicleEntity)
    (r : VehRecord) (h : Consistent sd st)
    (hr : (extract_vehicle_record sd st e).1 = some r) :
    (contextPure sd e.trip_id (currentStopPure sd e.stop_id) = none →
        r.previous_stop_id = none ∧ r.next_stop_id = none ∧ r.next_stop_sequence = none) ∧
      (∀ i en, contextPure sd e.trip_id (currentStopPure sd e.stop_id) = some (i, en) →
        r.previous_stop_id = stopFilter sd (adjacentPure sd e.trip_id (i : Int) false) ∧
          r.next_stop_id = stopFilter sd (adjacentPure sd e.trip_id (i : Int) true) ∧
          r.next_stop_sequence = seqFilter sd (adjacentPure sd e.trip_id (i : Int) true)) := by
  rw [extract_vehicle_record] at hr
  by_cases hid : (!truthy e.id) = true
  · rw [if_pos hid] at hr
    exact absurd hr (by simp)
  rw [if_neg hid] at hr
  simp only [] at hr
  obtain ⟨tv, st1, h1⟩ : ∃ a b, ensure_trip sd st e.trip_id = (a, b) := ⟨_, _, rfl⟩
  have hc1 : Consistent sd st1 := by
    have hx := (ensure_trip_spec sd st e.trip_id h).2.1
    rwa [h1] at hx
  rw [h1] at hr
  simp only [] at hr
  obtain ⟨ro, st2, h2⟩ : ∃ a b,
      (if tv = true then get_route_for_trip sd st1 e.trip_id else (none, st1)) = (a, b) :=
    ⟨_, _, rfl⟩
  have hc2 : Consistent sd st2 := by
    by_cases htv : tv = true
    · rw [if_pos htv] at h2
      have hx := (get_route_for_trip_spec sd st1 e.trip_id hc1).2.1
      rwa [h2] at hx
    · rw [if_neg htv] at h2
      cases h2
      exact hc1
  rw [h2] at hr
  simp only [] at hr
  obtain ⟨rid, st3, h3⟩ : ∃ a b,
      (if truthy ro = true then
          ((if (ensure_route sd st2 ro).1 = true then ro else none), (ensure_route sd st2 ro).2)
        else (ro, st2)) = (a, b) := ⟨_, _, rfl⟩
  have hc3 : Consistent sd st3 := by
    by_cases hro : truthy ro = true
    · rw [if_pos hro] at h3
      have hx := (ensure_route_spec sd st2 ro hc2).2.1
      rw [show (ensure_route sd st2 ro).2 = st3 from congrArg Prod.snd h3] at hx
      exact hx
    · rw [if_neg hro] at h3
      cases h3
      exact hc2
  rw [h3] at hr
  simp only [] at hr
  obtain ⟨sok, st4, h4⟩ : ∃ a b, ensure_stop sd st3 e.stop_id = (a, b) := ⟨_, _, rfl⟩
  have hspec4 := ensure_stop_spec sd st3 e.stop_id hc3
  rw [h4] at hspec4
  obtain ⟨hv4, hc4, -⟩ := hspec4
  have hv4n : sok = ensureStopPure sd e.stop_id := hv4
  rw [h4] at hr
  simp only [] at hr
  have hcur : (if sok = true then e.stop_id else none) = currentStopPure sd e.stop_id := by
    rw [currentStopPure, hv4n]
  rw [hcur] at hr
  obtain ⟨ctx, st5, h5⟩ : ∃ a b,
      (if (truthy (currentStopPure sd e.stop_id) && truthy e.trip_id) = true then
          get_stop_context sd st4 e.trip_id (currentStopPure sd e.stop_id)
        else (none, st4)) = (a, b) := ⟨_, _, rfl⟩
  have hctx : ctx = contextPure sd e.trip_id (currentStopPure sd e.stop_id) := by
    by_cases hcond : (truthy (currentStopPure sd e.stop_id) && truthy e.trip_id) = true
    · rw [if_pos hcond] at h5
      have hx := (get_stop_context_spec sd st4 e.trip_id (currentStopPure sd e.stop_id) hc4).1
      rw [h5] at hx
      exact hx
    · rw [if_neg hcond] at h5
      cases h5
      exact (contextPure_of_not_truthy sd e.trip_id (currentStopPure sd e.stop_id) hcond).symm
  have hc5 : Consistent sd st5 := by
    by_cases hcond : (truthy (currentStopPure sd e.stop_id) && truthy e.trip_id) = true
    · rw [if_pos hcond] at h5
      have hx := (get_stop_context_spec sd st4 e.trip_id (currentStopPure sd e.stop_id) hc4).2.1
      rwa [h5] at hx
    · rw [if_neg hcond] at h5
      cases h5
      exact hc4
  rw [h5] at hr
  simp only [] at hr
  rcases ctx with - | ⟨i0, en0⟩
  · simp only [Option.some.injEq] at hr
    subst hr
    rw [← hctx]
    refine ⟨fun _ => ⟨rfl, rfl, rfl⟩, fun i en hsome => ?_⟩
    cases hsome
  · simp only [] at hr
    obtain ⟨pv, st6, h6⟩ : ∃ a b,
        get_adjacent_stop sd st5 e.trip_id (i0 : Int) false = (a, b) := ⟨_, _, rfl⟩
    have hspec6 := get_adjacent_stop_spec sd st5 e.trip_id (i0 : Int) false hc5
    rw [h6] at hspec6
    obtain ⟨hv6, hc6, -⟩ := hspec6
    have hv6n : pv = adjacentPure sd e.trip_id (i0 : Int) false := hv6
    rw [h6] at hr
    simp only [] at hr
    obtain ⟨nx, st7, h7⟩ : ∃ a b,
        get_adjacent_stop sd st6 e.trip_id (i0 : Int) true = (a, b) := ⟨_, _, rfl⟩
    have hspec7 := get_adjacent_stop_spec sd st6 e.trip_id (i0 : Int) true hc6
    rw [h7] at hspec7
    obtain ⟨hv7, hc7, -⟩ := hspec7
    have hv7n : nx = adjacentPure sd e.trip_id (i0 : Int) true := hv7
    rw [h7] at hr
    simp only [] at hr
    have goalfields : r.previous_stop_id = stopFilter sd pv ∧
        r.next_stop_id = stopFilter sd nx ∧ r.next_stop_sequence = seqFilter sd nx := by
      rcases pv with - | pe
      · rcases nx with - | ne
        · dsimp only [] at hr
          simp only [Option.some.injEq] at hr
          subst hr
          exact ⟨rfl, rfl, rfl⟩
        · dsimp only [] at hr
          obtain ⟨ok8, st8, h8⟩ : ∃ a b, ensure_stop sd st7 (some ne.stop_id) = (a, b) :=
            ⟨_, _, rfl⟩
          have hspec8 := ensure_stop_spec sd st7 (some ne.stop_id) hc7
          rw [h8] at hspec8
          have hok8n : ok8 = ensureStopPure sd (some ne.stop_id) := hspec8.1
          rw [h8] at hr
          simp only [] at hr
          by_cases hok : ok8 = true
          · rw [if_pos hok] at hr
            simp only [Option.some.injEq] at hr
            subst hr
            refine ⟨rfl, ?_, ?_⟩ <;>
              simp [stopFilter, seqFilter, ← hok8n, hok]
          · rw [if_neg hok] at hr
            simp only [Option.some.injEq] at hr
            subst hr
            refine ⟨rfl, ?_, ?_⟩ <;>
              simp [stopFilter, seqFilter, ← hok8n, hok]
      · dsimp only [] at hr
        obtain ⟨ok8, st8, h8⟩ : ∃ a b, ensure_stop sd st7 (some pe.stop_id) = (a, b) :=
          ⟨_, _, rfl⟩
        have hspec8 := ensure_stop_spec sd st7 (some pe.stop_id) hc7
        rw [h8] at hspec8
        have hok8n : ok8 = ensureStopPure sd (some pe.stop_id) := hspec8.1
        rw [h8] at hr
        simp only [] at hr
        have hprevval : (if ok8 = true then some pe.stop_id else none) =
            stopFilter sd (some pe) := by
          simp only [stopFilter, ← hok8n]
        rcases nx with - | ne
        · dsimp only [] at hr
          simp only [Option.some.injEq] at hr
          subst hr
          refine ⟨?_, rfl, rfl⟩
          exact hprevval
        · dsimp only [] at hr
          obtain ⟨ok9, st9, h9⟩ : ∃ a b, ensure_stop sd st8 (some ne.stop_id) = (a, b) :=
            ⟨_, _, rfl⟩
          have hspec9 := ensure_stop_spec sd st8 (some ne.stop_id) hspec8.2.1
          rw [h9] at hspec9
          have hok9n : ok9 = ensureStopPure sd (some ne.stop_id) := hspec9.1
          rw [h9] at hr
          simp only [] at hr
          by_cases hok : ok9 = true
          · rw [if_pos hok] at hr
            simp only [Option.some.injEq] at hr
            subst hr
            refine ⟨hprevval, ?_, ?_⟩ <;>
              simp [stopFilter, seqFilter, ← hok9n, hok]
          · rw [if_neg hok] at hr
            simp only [Option.some.injEq] at hr
            subst hr
            refine ⟨hprevval, ?_, ?_⟩ <;>
              simp [stopFilter, seqFilter, ← hok9n, hok]
    rw [← hctx]
    refine ⟨fun hnone => ?_, fun i en hsome => ?_⟩
    · cases hnone
    · rw [Option.some.injEq] at hsome
      injection hsome with hi hen
      subst hi
      rw [hv6n, hv7n] at goalfields
      exact goalfields

/-- Witness for C5: a trip profile A(1) – B(2) – C(3) with all three stops
in the stops dimension; a vehicle at B gets previous stop A and next stop
C with sequence 3 — the sequence-adjacent entries. -/
theorem C5_adjacent_stops_witness :
    (contextPure ⟨[("T", some "R1")], ["R1"], ["A", "B", "C"],
        [("T", ⟨1, "A", none, none⟩), ("T", ⟨2, "B", none, none⟩),
          ("T", ⟨3, "C", none, none⟩)], none⟩
        (some "T") (currentStopPure ⟨[("T", some "R1")], ["R1"], ["A", "B", "C"],
          [("T", ⟨1, "A", none, none⟩), ("T", ⟨2, "B", none, none⟩),
            ("T", ⟨3, "C", none, none⟩)], none⟩ (some "B")) = none →
        (⟨"e1", some "v1", some "R47", some "T", some "R1", some "B", some "A", some "C",
          some 3⟩ : VehRecord).previous_stop_id = none ∧
          (⟨"e1", some "v1", some "R47", some "T", some "R1", some "B", some "A", some "C",
            some 3⟩ : VehRecord).next_stop_id = none ∧
          (⟨"e1", some "v1", some "R47", some "T", some "R1", some "B", some "A", some "C",
            some 3⟩ : VehRecord).next_stop_sequence = none) ∧
      (∀ i en, contextPure ⟨[("T", some "R1")], ["R1"], ["A", "B", "C"],
          [("T", ⟨1, "A", none, none⟩), ("T", ⟨2, "B", none, none⟩),
            ("T", ⟨3, "C", none, none⟩)], none⟩
          (some "T") (currentStopPure ⟨[("T", some "R1")], ["R1"], ["A", "B", "C"],
            [("T", ⟨1, "A", none, none⟩), ("T", ⟨2, "B", none, none⟩),
              ("T", ⟨3, "C", none, none⟩)], none⟩ (some "B")) = some (i, en) →
        (⟨"e1", some "v1", some "R47", some "T", some "R1", some "B", some "A", some "C",
          some 3⟩ : VehRecord).previous_stop_id =
            stopFilter ⟨[("T", some "R1")], ["R1"], ["A", "B", "C"],
              [("T", ⟨1, "A", none, none⟩), ("T", ⟨2, "B", none, none⟩),
                ("T", ⟨3, "C", none, none⟩)], none⟩
              (adjacentPure ⟨[("T", some "R1")], ["R1"], ["A", "B", "C"],
                [("T", ⟨1, "A", none, none⟩), ("T", ⟨2, "B", none, none⟩),
                  ("T", ⟨3, "C", none, none⟩)], none⟩ (some "T") (i : Int) false) ∧
          (⟨"e1", some "v1", some "R47", some "T", some "R1", some "B", some "A", some "C",
            some 3⟩ : VehRecord).next_stop_id =
            stopFilter ⟨[("T", some "R1")], ["R1"], ["A", "B", "C"],
              [("T", ⟨1, "A", none, none⟩), ("T", ⟨2, "B", none, none⟩),
                ("T", ⟨3, "C", none, none⟩)], none⟩
              (adjacentPure ⟨[("T", some "R1")], ["R1"], ["A", "B", "C"],
                [("T", ⟨1, "A", none, none⟩), ("T", ⟨2, "B", none, none⟩),
                  ("T", ⟨3, "C", none, none⟩)], none⟩ (some "T") (i : Int) true) ∧
          (⟨"e1", some "v1", some "R47", some "T", some "R1", some "B", some "A", some "C",
            some 3⟩ : VehRecord).next_stop_sequence =
            seqFilter ⟨[("T", some "R1")], ["R1"], ["A", "B", "C"],
              [("T", ⟨1, "A", none, none⟩), ("T", ⟨2, "B", none, none⟩),
                ("T", ⟨3, "C", none, none⟩)], none⟩
              (adjacentPure ⟨[("T", some "R1")], ["R1"], ["A", "B", "C"],
                [("T", ⟨1, "A", none, none⟩), ("T", ⟨2, "B", none, none⟩),
                  ("T", ⟨3, "C", none, none⟩)], none⟩ (some "T") (i : Int) true)) :=
  C5_adjacent_stops _ DimState.fresh ⟨some "e1", some "v1", some "R47", some "T", some "B"⟩ _
    (consistent_fresh _) (by decide)

/-- Counterexample to C5 as stated: trip T's timetable is A(1) – B(2) –
C(3), the vehicle's current stop B resolves to position 1, and the
sequence-adjacent entries are A and C — but A and C are missing from the
stops dimension, so the extractor emits previous and next stop as absent
instead of the adjacent entries. -/
theorem C5_counterexample :
    (extract_vehicle_record ⟨[("T", some "R1")], ["R1"], ["B"],
        [("T", ⟨1, "A", none, none⟩), ("T", ⟨2, "B", none, none⟩),
          ("T", ⟨3, "C", none, none⟩)], none⟩
        DimState.fresh ⟨some "e1", some "v1", some "R47", some "T", some "B"⟩).1 =
      some ⟨"e1", some "v1", some "R47", some "T", some "R1", some "B", none, none, none⟩ ∧
      contextPure ⟨[("T", some "R1")], ["R1"], ["B"],
          [("T", ⟨1, "A", none, none⟩), ("T", ⟨2, "B", none, none⟩),
            ("T", ⟨3, "C", none, none⟩)], none⟩ (some "T")
          (currentStopPure ⟨[("T", some "R1")], ["R1"], ["B"],
            [("T", ⟨1, "A", none, none⟩), ("T", ⟨2, "B", none, none⟩),
              ("T", ⟨3, "C", none, none⟩)], none⟩ (some "B")) =
        some (1, ⟨2, "B", none, none⟩) ∧
      adjacentPure ⟨[("T", some "R1")], ["R1"], ["B"],
          [("T", ⟨1, "A", none, none⟩), ("T", ⟨2, "B", none, none⟩),
            ("T", ⟨3, "C", none, none⟩)], none⟩ (some "T") 1 false =
        some ⟨1, "A", none, none⟩ ∧
      (none : Option String) ≠ some "A" := by
  refine ⟨by decide, by decide, by decide, by decide⟩

/-! ## Claim C6 -/

/-- One resolver call made while processing a cycle's entities: every
public `DimLookup` entry point (plus the internal profile load that
`get_stop_context` / `get_adjacent_stop` share). -/
inductive DimOp
  | opEnsureTrip (t : Option String)
  | opRouteForTrip (t : Option String)
  | opLoadProfile (t : String)
  | opStopContext (t s : Option String)
  | opAdjacent (t : Option String) (i : Int) (fwd : Bool)
  | opEnsureRoute (r : Option String)
  | opEnsureStop (s : Option String)
deriving DecidableEq, Repr

/-- The state effect of one resolver call. -/
def applyOp (sd : StaticData) (st : DimState) : DimOp → DimState
  | .opEnsureTrip t => (ensure_trip sd st t).2
  | .opRouteForTrip t => (get_route_for_trip sd st t).2
  | .opLoadProfile t => (load_trip_profile sd st t).2
  | .opStopContext t s => (get_stop_context sd st t s).2
  | .opAdjacent t i fwd => (get_adjacent_stop sd st t i fwd).2
  | .opEnsureRoute r => (ensure_route sd st r).2
  | .opEnsureStop s => (ensure_stop sd st s).2

/-- All resolver calls of one cycle, in order. -/
def runOps (sd : StaticData) : List DimOp → DimState → DimState
  | [], st => st
  | op :: rest, st => runOps sd rest (applyOp sd st op)

theorem applyOp_pres (sd : StaticData) (st : DimState) (op : DimOp)
    (h : Consistent sd st) :
    Consistent sd (applyOp sd st op) ∧ st.missing_trip ⊆ (applyOp sd st op).missing_trip := by
  cases op with
  | opEnsureTrip t => exact ⟨(ensure_trip_spec sd st t h).2.1, (ensure_trip_spec sd st t h).2.2⟩
  | opRouteForTrip t =>
    exact ⟨(get_route_for_trip_spec sd st t h).2.1, (get_route_for_trip_spec sd st t h).2.2⟩
  | opLoadProfile t =>
    exact ⟨(load_trip_profile_spec sd st t h).2.1, (load_trip_profile_spec sd st t h).2.2.1⟩
  | opStopContext t s =>
    exact ⟨(get_stop_context_spec sd st t s h).2.1, (get_stop_context_spec sd st t s h).2.2⟩
  | opAdjacent t i fwd =>
    exact ⟨(get_adjacent_stop_spec sd st t i fwd h).2.1, (get_adjacent_stop_spec sd st t i fwd h).2.2⟩
  | opEnsureRoute r =>
    exact ⟨(ensure_route_spec sd st r h).2.1, (ensure_route_spec sd st r h).2.2⟩
  | opEnsureStop s =>
    exact ⟨(ensure_stop_spec sd st s h).2.1, (ensure_stop_spec sd st s h).2.2⟩

theorem runOps_pres (sd : StaticData) (ops : List DimOp) (st : DimState)
    (h : Consistent sd st) :
    Consistent sd (runOps sd ops st) ∧ st.missing_trip ⊆ (runOps sd ops st).missing_trip := by
  induction ops generalizing st with
  | nil => exact ⟨h, fun a ha => ha⟩
  | cons op rest ih =>
    obtain ⟨hc, hm⟩ := applyOp_pres sd st op h
    obtain ⟨hc', hm'⟩ := ih (applyOp sd st op) hc
    exact ⟨hc', hm.trans hm'⟩

theorem runOps_mem (sd : StaticData) (ops : List DimOp) (st : DimState) (t : String)
    (h : Consistent sd st) (hpure : tripProfilePure sd t = [])
    (href : DimOp.opLoadProfile t ∈ ops) :
    t ∈ (runOps sd ops st).missing_trip := by
  induction ops generalizing st with
  | nil => cases href
  | cons op rest ih =>
    rcases List.mem_cons.mp href with heq | hmem
    · subst heq
      have hmemt : t ∈ (applyOp sd st (.opLoadProfile t)).missing_trip :=
        (load_trip_profile_spec sd st t h).2.2.2 hpure
      exact (runOps_pres sd rest _ (applyOp_pres sd st _ h).1).2 hmemt
    · exact ih _ (applyOp_pres sd st op h).1 hmem

theorem reportLineFor_eq (cat : String) (vals : List String) :
    reportLineFor cat vals = none ∨
      ∃ line, reportLineFor cat vals = some line ∧ line.category = cat ∧
        line.sample.length ≤ 10 := by
  unfold reportLineFor
  split
  · exact Or.inl rfl
  · exact Or.inr ⟨_, rfl, rfl, List.length_take_le _ _⟩

theorem report_shape (st : DimState) :
    (report_missing st).length ≤ 3 ∧
      ((report_missing st).map (·.category)).Nodup ∧
      ∀ line ∈ report_missing st, line.sample.length ≤ 10 := by
  rcases reportLineFor_eq "trip" st.missing_trip with h1 | ⟨l1, h1, hc1, hs1⟩ <;>
    rcases reportLineFor_eq "route" st.missing_route with h2 | ⟨l2, h2, hc2, hs2⟩ <;>
      rcases reportLineFor_eq "stop" st.missing_stop with h3 | ⟨l3, h3, hc3, hs3⟩ <;>
        simp_all [report_missing]

/-- C6: a trip id absent from both the reference stop-times storage and the
CSV fallback appears exactly once in the cycle's missing-trip set, no
matter how many resolver calls reference it; and `report_missing` emits at
most one aggregated line per missing category — at most three lines in
all, with pairwise-distinct categories and a sample capped at ten keys —
never one line per missing key. -/
theorem C6_missing_once (sd : StaticData) (ops : List DimOp) (t : String)
    (hpure : tripProfilePure sd t = [])
    (href : DimOp.opLoadProfile t ∈ ops) :
    ((runOps sd ops DimState.fresh).missing_trip.count t = 1) ∧
      (report_missing (runOps sd ops DimState.fresh)).length ≤ 3 ∧
      ((report_missing (runOps sd ops DimState.fresh)).map (·.category)).Nodup ∧
      ∀ line ∈ report_missing (runOps sd ops DimState.fresh), line.sample.length ≤ 10 := by
  refine ⟨?_, (report_shape _).1, (report_shape _).2.1, (report_shape _).2.2⟩
  exact List.count_eq_one_of_mem
    (runOps_pres sd ops DimState.fresh (consistent_fresh sd)).1.missNodup
    (runOps_mem sd ops DimState.fresh t (consistent_fresh sd) hpure href)

/-- Witness for C6: trip "T9" has no timetable rows and no CSV fallback; it
is referenced four times in the cycle (twice via profile loads, once via a
stop-context call, once via an existence check) yet counted exactly once,
and the report stays within three aggregated lines. -/
theorem C6_missing_once_witness :
    ((runOps ⟨[("T9", some "R1")], ["R1"], ["S1"], [], none⟩
        [DimOp.opLoadProfile "T9", DimOp.opStopContext (some "T9") (some "S1"),
          DimOp.opLoadProfile "T9", DimOp.opEnsureTrip (some "T9")]
        DimState.fresh).missing_trip.count "T9" = 1) ∧
      (report_missing (runOps ⟨[("T9", some "R1")], ["R1"], ["S1"], [], none⟩
        [DimOp.opLoadProfile "T9", DimOp.opStopContext (some "T9") (some "S1"),
          DimOp.opLoadProfile "T9", DimOp.opEnsureTrip (some "T9")]
        DimState.fresh)).length ≤ 3 ∧
      ((report_missing (runOps ⟨[("T9", some "R1")], ["R1"], ["S1"], [], none⟩
        [DimOp.opLoadProfile "T9", DimOp.opStopContext (some "T9") (some "S1"),
          DimOp.opLoadProfile "T9", DimOp.opEnsureTrip (some "T9")]
        DimState.fresh)).map (·.category)).Nodup ∧
      ∀ line ∈ report_missing (runOps ⟨[("T9", some "R1")], ["R1"], ["S1"], [], none⟩
        [DimOp.opLoadProfile "T9", DimOp.opStopContext (some "T9") (some "S1"),
          DimOp.opLoadProfile "T9", DimOp.opEnsureTrip (some "T9")]
        DimState.fresh), line.sample.length ≤ 10 :=
  C6_missing_once ⟨[("T9", some "R1")], ["R1"], ["S1"], [], none⟩
    [DimOp.opLoadProfile "T9", DimOp.opStopContext (some "T9") (some "S1"),
      DimOp.opLoadProfile "T9", DimOp.opEnsureTrip (some "T9")] "T9"
    (by decide) (by decide)

end Poller
